import Mathlib

/-!
Verification of the payment-analysis decisioning core.

This file shallowly embeds the decisioning subsystem of the repository
(`src/payment_analysis/backend/decisioning/engine.py`,
`src/payment_analysis/backend/routes/experiments.py`,
`src/payment_analysis/backend/routes/decision.py`,
`src/payment_analysis/backend/db_models.py`) and proves or refutes the
frozen specification claims about it.

Conventions of the embedding:
* Python floats are modelled as `PyFloat` (an exact rational, an infinity,
  or NaN); decimal literals become the corresponding rationals.
* Python exceptions are modelled with `Except PyErr`.
* Mutable caches and the relational store are modelled by explicit state
  passing; stateful functions take the state and return the new state.
* Python object aliasing (relevant for the never-mutate-the-input claims)
  is modelled by threading an explicit `aliased` flag: an assignment to a
  field of the local `enriched` object also rewrites the caller's `ctx`
  object exactly when the two names refer to the same object.
-/

namespace PaymentAnalysis

/-- Python exceptions that the embedded code can raise. -/
inductive PyErr where
  | valueError
  | typeError
  | overflowError
  deriving DecidableEq, Repr

/-- A Python float value: finite (exact rational), ±infinity, or NaN. -/
inductive PyFloat where
  | finite (q : ℚ)
  | inf
  | ninf
  | nan
  deriving DecidableEq, Repr

/-- Python whitespace characters recognised by str.strip(). -/
def isPyWhitespace (c : Char) : Bool :=
  c = ' ' || c = '\t' || c = '\n' || c = '\x0d' || c = '\x0b' || c = '\x0c'

/-- Model of Python str.strip(): drop whitespace from both ends. -/
def pyStrip (s : String) : String :=
  ⟨(s.data.dropWhile isPyWhitespace).reverse.dropWhile isPyWhitespace |>.reverse⟩

/-- Underscore placement check for Python numeric literals: every
underscore must sit directly between two digits. -/
def underscoresOk : List Char → Bool
  | '_' :: _ => false
  | a :: '_' :: b :: rest => a.isDigit && b.isDigit && underscoresOk (b :: rest)
  | _ :: rest => underscoresOk rest
  | [] => true

/-- Digit-string check. -/
def allDigits (cs : List Char) : Bool := cs.all Char.isDigit

/-- Numeric value of a digit string. -/
def digitsVal (cs : List Char) : ℕ :=
  cs.foldl (fun a c => a * 10 + (c.toNat - 48)) 0

/-- Split a character list at the first occurrence of a character;
returns none when the character does not occur. -/
def splitAtChar (sep : Char) : List Char → Option (List Char × List Char)
  | [] => none
  | c :: rest =>
    if c = sep then some ([], rest)
    else match splitAtChar sep rest with
      | some (l, r) => some (c :: l, r)
      | none => none

/-- Parse the mantissa of a decimal float literal (lower-cased, no sign,
no underscores): digits with an optional single point, at least one
digit overall.  Returns the value as a rational. -/
def parseMantissa (cs : List Char) : Option ℚ :=
  match splitAtChar '.' cs with
  | none =>
    if cs ≠ [] && allDigits cs then some (digitsVal cs : ℚ) else none
  | some (ip, fp) =>
    if (ip ≠ [] || fp ≠ []) && allDigits ip && allDigits fp && fp.all Char.isDigit
        && (splitAtChar '.' fp).isNone then
      some ((digitsVal (ip ++ fp) : ℚ) / (10 : ℚ) ^ fp.length)
    else none

/-- Parse the exponent part of a float literal (after the letter e):
an optional sign followed by a non-empty digit string. -/
def parseExponent (cs : List Char) : Option ℤ :=
  match cs with
  | '+' :: ds => if ds ≠ [] && allDigits ds then some (digitsVal ds : ℤ) else none
  | '-' :: ds => if ds ≠ [] && allDigits ds then some (-(digitsVal ds : ℤ)) else none
  | ds => if ds ≠ [] && allDigits ds then some (digitsVal ds : ℤ) else none

/-- Parse an unsigned decimal float literal (lower-cased, underscores
removed): mantissa with an optional e-exponent. -/
def parseUnsignedDecimal (cs : List Char) : Option ℚ :=
  match splitAtChar 'e' cs with
  | none => parseMantissa cs
  | some (m, e) =>
    match parseMantissa m, parseExponent e with
    | some q, some k => some (q * (10 : ℚ) ^ k)
    | _, _ => none

/-- Parse an unsigned float body: infinity, nan, or a decimal literal. -/
def parseUnsignedPyFloat (cs : List Char) : Option PyFloat :=
  if cs = "inf".data || cs = "infinity".data then some .inf
  else if cs = "nan".data then some .nan
  else (parseUnsignedDecimal cs).map .finite

/-- Negate a Python float. -/
def PyFloat.neg : PyFloat → PyFloat
  | .finite q => .finite (-q)
  | .inf => .ninf
  | .ninf => .inf
  | .nan => .nan

/-- Model of Python float(str): strip whitespace, lower-case, accept an
optional sign followed by a decimal literal (underscores between digits
allowed) or inf/infinity/nan.  Returns none exactly when Python raises
ValueError. -/
def pyParseFloat (s : String) : Option PyFloat :=
  let cs := (pyStrip s).data.map Char.toLower
  if underscoresOk cs then
    let cs := cs.filter (· ≠ '_')
    match cs with
    | '+' :: rest => parseUnsignedPyFloat rest
    | '-' :: rest => (parseUnsignedPyFloat rest).map PyFloat.neg
    | rest => parseUnsignedPyFloat rest
  else none

/-- Model of Python str.lower() (character-wise lower-casing). -/
def strLower (s : String) : String := ⟨s.data.map Char.toLower⟩

/-- Truncation toward zero, as Python int(float) on a finite float. -/
def ratTrunc (q : ℚ) : ℤ := if 0 ≤ q then ⌊q⌋ else -⌊-q⌋

/-- Model of Python int(float(v)) applied to a parsed float: finite
values truncate toward zero, NaN raises ValueError, infinities raise
OverflowError. -/
def pyIntOfFloat : PyFloat → Except PyErr ℤ
  | .finite q => .ok (ratTrunc q)
  | .nan => .error .valueError
  | .inf => .error .overflowError
  | .ninf => .error .overflowError

-- ---------------------------------------------------------------------------
-- engine._params_from_config
-- ---------------------------------------------------------------------------

/-- The kv dict built by _params_from_config: keys and values stripped,
rows with an empty key or value skipped, later rows overwrite earlier
ones (we look the key up from the back). -/
def kvGet (rows : List (String × String)) (k : String) : Option String :=
  let cleaned := (rows.map fun r => (pyStrip r.1, pyStrip r.2)).filter
    fun r => r.1 ≠ "" && r.2 ≠ ""
  (cleaned.reverse.find? fun r => r.1 = k).map (·.2)

/-- The closure _float in _params_from_config: parse the stored value as
a float, fall back to the default on a missing key or a ValueError.
Note float('inf') succeeds, so an infinite stored value is kept. -/
def pyFloatField (rows : List (String × String)) (key : String) (default : ℚ) : PyFloat :=
  match kvGet rows key with
  | none => .finite default
  | some v =>
    match pyParseFloat v with
    | some f => f
    | none => .finite default

/-- The closure _int in _params_from_config: int(float(kv.get(key,
default))).  The enclosing try catches ValueError and TypeError only, so
a stored value that parses to an infinity makes int() raise an uncaught
OverflowError. -/
def pyIntField (rows : List (String × String)) (key : String) (default : ℤ) : Except PyErr ℤ :=
  match kvGet rows key with
  | none => .ok default
  | some v =>
    match pyParseFloat v with
    | none => .ok default
    | some f =>
      match pyIntOfFloat f with
      | .ok n => .ok n
      | .error .valueError => .ok default
      | .error .typeError => .ok default
      | .error e => .error e

/-- The closure _bool in _params_from_config: the stored value (or the
Python str() of the boolean default when the key is absent) lower-cased
must be one of "true", "1", "yes". -/
def pyBoolField (rows : List (String × String)) (key : String) (default : Bool) : Bool :=
  let v := strLower ((kvGet rows key).getD (if default then "True" else "False"))
  v = "true" || v = "1" || v = "yes"

/-- DecisionParams (engine.py): all tunable decision parameters with
their hard-coded defaults. -/
structure DecisionParams where
  risk_threshold_high : PyFloat := .finite (3/4)
  risk_threshold_medium : PyFloat := .finite (7/20)
  device_trust_low_risk : PyFloat := .finite (9/10)
  retry_max_attempts_control : ℤ := 3
  retry_max_attempts_treatment : ℤ := 4
  retry_backoff_recurring_control : ℤ := 900
  retry_backoff_recurring_treatment : ℤ := 300
  retry_backoff_transient : ℤ := 60
  retry_backoff_soft_treatment : ℤ := 1800
  routing_domestic_country : String := "BR"
  ml_enrichment_enabled : Bool := true
  ml_enrichment_timeout_ms : ℤ := 2000
  rule_engine_enabled : Bool := true
  deriving DecidableEq, Repr

/-- The DecisionParams() default constructor. -/
def defaultParams : DecisionParams := {}

/-- engine._params_from_config: build DecisionParams from key-value rows.
The integer fields are evaluated in source order; the first uncaught
OverflowError propagates. -/
def paramsFromConfig (rows : List (String × String)) : Except PyErr DecisionParams := do
  let rmac ← pyIntField rows "retry_max_attempts_control" 3
  let rmat ← pyIntField rows "retry_max_attempts_treatment" 4
  let rbrc ← pyIntField rows "retry_backoff_recurring_control" 900
  let rbrt ← pyIntField rows "retry_backoff_recurring_treatment" 300
  let rbt ← pyIntField rows "retry_backoff_transient" 60
  let rbst ← pyIntField rows "retry_backoff_soft_treatment" 1800
  let timeout ← pyIntField rows "ml_enrichment_timeout_ms" 2000
  return {
    risk_threshold_high := pyFloatField rows "risk_threshold_high" (3/4)
    risk_threshold_medium := pyFloatField rows "risk_threshold_medium" (7/20)
    device_trust_low_risk := pyFloatField rows "device_trust_low_risk" (9/10)
    retry_max_attempts_control := rmac
    retry_max_attempts_treatment := rmat
    retry_backoff_recurring_control := rbrc
    retry_backoff_recurring_treatment := rbrt
    retry_backoff_transient := rbt
    retry_backoff_soft_treatment := rbst
    routing_domestic_country := (kvGet rows "routing_domestic_country").getD "BR"
    ml_enrichment_enabled := pyBoolField rows "ml_enrichment_enabled" true
    ml_enrichment_timeout_ms := timeout
    rule_engine_enabled := pyBoolField rows "rule_engine_enabled" true
  }

-- ---------------------------------------------------------------------------
-- Cache layer (engine.py _CacheEntry and the _load_* methods)
-- ---------------------------------------------------------------------------

/-- A module-level cache entry: the cached snapshot (None initially) and
the monotonic-clock instant it was fetched at (instants are modelled as
integers; only their differences against the TTL matter). -/
structure CacheEntry (α : Type) where
  data : Option α
  fetched_at : ℤ
  deriving DecidableEq, Repr

/-- _CacheEntry.is_stale: now - fetched_at > 60 seconds. -/
def CacheEntry.isStale {α : Type} (e : CacheEntry α) (now : ℤ) : Bool :=
  now - e.fetched_at > 60

/-- DecisionEngine._load_config, single-threaded semantics.  Inputs: the
current cache entry, the monotonic clock, whether a runtime is attached,
and the outcome of the Lakebase read (error = the read raised).  Returns
the params handed to the caller and the new cache entry.  On a read
failure the rows stay empty, so the hard-coded defaults are built and
stored, replacing any previous snapshot. -/
def loadConfig (cache : CacheEntry DecisionParams) (now : ℤ) (hasRuntime : Bool)
    (read : Except Unit (List (String × String))) :
    Except PyErr (DecisionParams × CacheEntry DecisionParams) :=
  match cache.data, cache.isStale now with
  | some d, false => .ok (d, cache)
  | _, _ =>
    let rows : List (String × String) :=
      if hasRuntime then (match read with | .ok r => r | .error _ => []) else []
    match (if rows.isEmpty then .ok defaultParams else paramsFromConfig rows :
        Except PyErr DecisionParams) with
    | .error e => .error e
    | .ok params => .ok (params, ⟨some params, now⟩)

/-- A RetryableDeclineCode row as produced by the Lakebase reader. -/
structure DeclineRow where
  code : String
  category : String
  default_backoff_seconds : ℤ
  max_attempts : ℤ
  deriving DecidableEq, Repr

/-- RetryableCode (engine.py): code → category, backoff, max attempts. -/
structure RetryableCode where
  code : String
  category : String
  default_backoff_seconds : ℤ
  max_attempts : ℤ
  deriving DecidableEq, Repr

/-- Python dict insertion with overwrite, preserving insertion order. -/
def dictInsert {β : Type} (m : List (String × β)) (k : String) (v : β) :
    List (String × β) :=
  if m.any (·.1 = k) then m.map (fun p => if p.1 = k then (k, v) else p)
  else m ++ [(k, v)]

/-- engine._decline_codes_map: build the lookup from code to
RetryableCode; codes are stripped and lower-cased, empty codes skipped. -/
def declineCodesMap (rows : List DeclineRow) : List (String × RetryableCode) :=
  rows.foldl (fun acc row =>
    let code := strLower (pyStrip row.code)
    if code = "" then acc
    else dictInsert acc code
      ⟨code, row.category, row.default_backoff_seconds, row.max_attempts⟩) []

/-- DecisionEngine._load_decline_codes, single-threaded semantics.  On a
read failure the rows stay empty, so an empty map is stored, replacing
any previous snapshot. -/
def loadDeclineCodes (cache : CacheEntry (List (String × RetryableCode))) (now : ℤ)
    (hasRuntime : Bool) (read : Except Unit (List DeclineRow)) :
    List (String × RetryableCode) × CacheEntry (List (String × RetryableCode)) :=
  match cache.data, cache.isStale now with
  | some d, false => (d, cache)
  | _, _ =>
    let rows : List DeclineRow :=
      if hasRuntime then (match read with | .ok r => r | .error _ => []) else []
    let codes := if rows.isEmpty then [] else declineCodesMap rows
    (codes, ⟨some codes, now⟩)

-- ---------------------------------------------------------------------------
-- Route ranking (engine.py _route_scores_list, _load_routes)
-- ---------------------------------------------------------------------------

/-- A RoutePerformance row as produced by the Lakebase reader. -/
structure RouteRow where
  route_name : String
  approval_rate_pct : ℚ
  avg_latency_ms : ℚ
  cost_score : ℚ
  deriving DecidableEq, Repr

/-- RouteScore (engine.py). -/
structure RouteScore where
  route_name : String
  approval_rate_pct : ℚ
  avg_latency_ms : ℚ
  cost_score : ℚ
  deriving DecidableEq, Repr

/-- The composite ranking key comparison used by the sort in
_route_scores_list: lexicographic on (-approval_rate_pct,
avg_latency_ms, cost_score), i.e. higher approval rate first, ties
broken by lower latency, then by lower cost. -/
def routeLe (r s : RouteScore) : Bool :=
  -r.approval_rate_pct < -s.approval_rate_pct ||
    (-r.approval_rate_pct = -s.approval_rate_pct &&
      (r.avg_latency_ms < s.avg_latency_ms ||
        (r.avg_latency_ms = s.avg_latency_ms && r.cost_score ≤ s.cost_score)))

/-- Stable insertion into a sorted list: the new element goes after
every element that compares less-or-equal to it, so elements with equal
keys keep their original relative order. -/
def stableInsert {α : Type} (le : α → α → Bool) (x : α) : List α → List α
  | [] => [x]
  | y :: ys => if le y x then y :: stableInsert le x ys else x :: y :: ys

/-- Stable sort by a total preorder, processing elements left to right;
for a total preorder this computes the same list as Python's stable
list.sort. -/
def stableSort {α : Type} (le : α → α → Bool) (l : List α) : List α :=
  l.foldl (fun acc x => stableInsert le x acc) []

/-- engine._route_scores_list: build RouteScore values from the rows and
stable-sort them by the composite ranking key. -/
def routeScoresList (rows : List RouteRow) : List RouteScore :=
  stableSort routeLe (rows.map fun row =>
    RouteScore.mk row.route_name row.approval_rate_pct row.avg_latency_ms
      row.cost_score)

/-- DecisionEngine._load_routes, single-threaded semantics: the ranked
list is computed by routeScoresList at refresh time and stored; a
non-stale read returns the stored list as is. -/
def loadRoutes (cache : CacheEntry (List RouteScore)) (now : ℤ)
    (hasRuntime : Bool) (read : Except Unit (List RouteRow)) :
    List RouteScore × CacheEntry (List RouteScore) :=
  match cache.data, cache.isStale now with
  | some d, false => (d, cache)
  | _, _ =>
    let rows : List RouteRow :=
      if hasRuntime then (match read with | .ok r => r | .error _ => []) else []
    let routes := if rows.isEmpty then [] else routeScoresList rows
    (routes, ⟨some routes, now⟩)

-- ---------------------------------------------------------------------------
-- SHA-256 (hashlib.sha256, used by decision._get_or_assign_variant)
-- ---------------------------------------------------------------------------

/-- 32-bit wrap. -/
def w32 (x : ℕ) : ℕ := x % 4294967296

/-- 32-bit right rotation. -/
def rotRight32 (n x : ℕ) : ℕ := w32 ((x >>> n) ||| (x <<< (32 - n)))

/-- SHA-256 big sigma 0. -/
def bigSigZero (x : ℕ) : ℕ := rotRight32 2 x ^^^ rotRight32 13 x ^^^ rotRight32 22 x

/-- SHA-256 big sigma 1. -/
def bigSigOne (x : ℕ) : ℕ := rotRight32 6 x ^^^ rotRight32 11 x ^^^ rotRight32 25 x

/-- SHA-256 small sigma 0. -/
def smallSigZero (x : ℕ) : ℕ := rotRight32 7 x ^^^ rotRight32 18 x ^^^ (x >>> 3)

/-- SHA-256 small sigma 1. -/
def smallSigOne (x : ℕ) : ℕ := rotRight32 17 x ^^^ rotRight32 19 x ^^^ (x >>> 10)

/-- SHA-256 choose function. -/
def chooseFn (x y z : ℕ) : ℕ := (x &&& y) ^^^ ((x ^^^ 4294967295) &&& z)

/-- SHA-256 majority function. -/
def majorityFn (x y z : ℕ) : ℕ := (x &&& y) ^^^ (x &&& z) ^^^ (y &&& z)

/-- The SHA-256 round constants. -/
def shaK : List ℕ :=
  [1116352408, 1899447441, 3049323471, 3921009573, 961987163,
   1508970993, 2453635748, 2870763221, 3624381080, 310598401,
   607225278, 1426881987, 1925078388, 2162078206, 2614888103,
   3248222580, 3835390401, 4022224774, 264347078, 604807628,
   770255983, 1249150122, 1555081692, 1996064986, 2554220882,
   2821834349, 2952996808, 3210313671, 3336571891, 3584528711,
   113926993, 338241895, 666307205, 773529912, 1294757372,
   1396182291, 1695183700, 1986661051, 2177026350, 2456956037,
   2730485921, 2820302411, 3259730800, 3345764771, 3516065817,
   3600352804, 4094571909, 275423344, 430227734, 506948616,
   659060556, 883997877, 958139571, 1322822218, 1537002063,
   1747873779, 1955562222, 2024104815, 2227730452, 2361852424,
   2428436474, 2756734187, 3204031479, 3329325298]

/-- The SHA-256 initial hash value. -/
def shaH0 : List ℕ :=
  [1779033703, 3144134277, 1013904242, 2773480762,
   1359893119, 2600822924, 528734635, 1541459225]

/-- Big-endian bytes of a value, fixed width. -/
def beBytes : ℕ → ℕ → List ℕ
  | 0, _ => []
  | n + 1, v => beBytes n (v / 256) ++ [v % 256]

/-- SHA-256 message padding: append 0x80, then the number of zero bytes
that brings the length to 56 mod 64, then the 64-bit big-endian bit
length.  The zero count is (55 − L) mod 64 as an integer; over ℕ it is
computed as (119 − L % 64) % 64, which always lies in [0, 63] and is
congruent to 55 − L mod 64, so messages of 56 or more bytes wrap into
an extra block as required. -/
def shaPad (msg : List ℕ) : List ℕ :=
  msg ++ [0x80] ++ List.replicate ((119 - msg.length % 64) % 64) 0
    ++ beBytes 8 (8 * msg.length)

/-- Group bytes into 32-bit big-endian words. -/
def bytesToWords : List ℕ → List ℕ
  | b0 :: b1 :: b2 :: b3 :: rest =>
    (b0 * 16777216 + b1 * 65536 + b2 * 256 + b3) :: bytesToWords rest
  | _ => []

/-- Group a word list into 16-word blocks (the padded message length is
always a multiple of 16 words; a short tail is dropped). -/
def wordsToBlocks : List ℕ → List (List ℕ)
  | w0 :: w1 :: w2 :: w3 :: w4 :: w5 :: w6 :: w7 ::
    w8 :: w9 :: w10 :: w11 :: w12 :: w13 :: w14 :: w15 :: rest =>
    [w0, w1, w2, w3, w4, w5, w6, w7, w8, w9, w10, w11, w12, w13, w14, w15]
      :: wordsToBlocks rest
  | _ => []

/-- The 64-entry SHA-256 message schedule of one block. -/
def shaSchedule (block : List ℕ) : List ℕ :=
  (List.range 64).foldl (fun ws t =>
    if t < 16 then ws ++ [block.getD t 0]
    else ws ++ [w32 (smallSigOne (ws.getD (t - 2) 0) + ws.getD (t - 7) 0 +
      smallSigZero (ws.getD (t - 15) 0) + ws.getD (t - 16) 0)]) []

/-- One SHA-256 compression round. -/
def shaRound (kw : ℕ × ℕ) (st : ℕ × ℕ × ℕ × ℕ × ℕ × ℕ × ℕ × ℕ) :
    ℕ × ℕ × ℕ × ℕ × ℕ × ℕ × ℕ × ℕ :=
  let (a, b, c, d, e, f, g, h) := st
  let t1 := w32 (h + bigSigOne e + chooseFn e f g + kw.1 + kw.2)
  let t2 := w32 (bigSigZero a + majorityFn a b c)
  (w32 (t1 + t2), a, b, c, w32 (d + t1), e, f, g)

/-- SHA-256 compression of one block into the running hash. -/
def shaCompress (hs : List ℕ) (block : List ℕ) : List ℕ :=
  let ws := shaSchedule block
  let init : ℕ × ℕ × ℕ × ℕ × ℕ × ℕ × ℕ × ℕ :=
    (hs.getD 0 0, hs.getD 1 0, hs.getD 2 0, hs.getD 3 0,
     hs.getD 4 0, hs.getD 5 0, hs.getD 6 0, hs.getD 7 0)
  let (a, b, c, d, e, f, g, h) := (shaK.zip ws).foldl (fun st kw => shaRound kw st) init
  [w32 (hs.getD 0 0 + a), w32 (hs.getD 1 0 + b), w32 (hs.getD 2 0 + c),
   w32 (hs.getD 3 0 + d), w32 (hs.getD 4 0 + e), w32 (hs.getD 5 0 + f),
   w32 (hs.getD 6 0 + g), w32 (hs.getD 7 0 + h)]

/-- The SHA-256 digest of a byte sequence, as 32 bytes. -/
def sha256Bytes (msg : List ℕ) : List ℕ :=
  ((wordsToBlocks (bytesToWords (shaPad msg))).foldl shaCompress shaH0).flatMap
    (beBytes 4)

/-- UTF-8 encoding of one character. -/
def utf8Char (c : Char) : List ℕ :=
  let v := c.toNat
  if v < 0x80 then [v]
  else if v < 0x800 then [0xc0 ||| (v >>> 6), 0x80 ||| (v &&& 0x3f)]
  else if v < 0x10000 then
    [0xe0 ||| (v >>> 12), 0x80 ||| ((v >>> 6) &&& 0x3f), 0x80 ||| (v &&& 0x3f)]
  else
    [0xf0 ||| (v >>> 18), 0x80 ||| ((v >>> 12) &&& 0x3f),
     0x80 ||| ((v >>> 6) &&& 0x3f), 0x80 ||| (v &&& 0x3f)]

/-- UTF-8 encoding of a string (str.encode()). -/
def utf8Bytes (s : String) : List ℕ := s.data.flatMap utf8Char

/-- hashlib.sha256(subject_key.encode()).digest()[-1]: the last byte of
the SHA-256 digest of the UTF-8 encoded string. -/
def sha256LastByte (s : String) : ℕ := (sha256Bytes (utf8Bytes s)).getLast!

-- ---------------------------------------------------------------------------
-- Experiment store (db_models.py) and assignment operations
-- ---------------------------------------------------------------------------

/-- An Experiment row: id, name, status (draft | running | paused |
stopped). -/
structure ExperimentRec where
  id : String
  name : String
  status : String
  deriving DecidableEq, Repr

/-- An ExperimentAssignment row.  The table has an autoincrement primary
key and only non-unique indexes on experiment_id / subject_key /
variant: nothing constrains a (experiment_id, subject_key) pair to a
single row. -/
structure AssignmentRec where
  experiment_id : String
  subject_key : String
  variant : String
  deriving DecidableEq, Repr

/-- The relational store as seen by the assignment operations; rows in
insertion order. -/
structure AppDb where
  experiments : List ExperimentRec
  assignments : List AssignmentRec
  deriving DecidableEq, Repr

/-- The assign endpoint (experiments.py, POST
/{experiment_id}/assign): 404 when the experiment is missing, 400 when
it is not running or draft, and otherwise unconditionally inserts a new
assignment row with the caller-supplied variant and returns it.  No
lookup of an existing assignment is performed. -/
def assignEndpoint (db : AppDb) (experiment_id subject_key variant : String) :
    Except ℕ (AssignmentRec × AppDb) :=
  match db.experiments.find? (·.id = experiment_id) with
  | none => .error 404
  | some exp =>
    if exp.status ≠ "running" ∧ exp.status ≠ "draft" then .error 400
    else
      let a : AssignmentRec := ⟨experiment_id, subject_key, variant⟩
      .ok (a, { db with assignments := db.assignments ++ [a] })

/-- The deterministic bucket of decision._get_or_assign_variant:
treatment when the last byte of the SHA-256 hash of the subject key is
odd, control when it is even. -/
def hashVariant (subject_key : String) : String :=
  if sha256LastByte subject_key % 2 = 1 then "treatment" else "control"

/-- decision._get_or_assign_variant: return None when there is no
experiment id or the subject key is empty; return a stored assignment's
variant verbatim when one exists (first matching row); otherwise, when
the experiment exists and is assignable, persist and return the
hash-derived variant; otherwise return None. -/
def getOrAssignVariant (db : AppDb) (experiment_id : Option String)
    (subject_key : String) : Option String × AppDb :=
  match experiment_id with
  | none => (none, db)
  | some eid =>
    if eid = "" ∨ subject_key = "" then (none, db)
    else
      match db.assignments.find? fun a =>
          a.experiment_id = eid ∧ a.subject_key = subject_key with
      | some a => (some a.variant, db)
      | none =>
        match db.experiments.find? (·.id = eid) with
        | none => (none, db)
        | some exp =>
          if exp.status ≠ "running" ∧ exp.status ≠ "draft" then (none, db)
          else
            let v := hashVariant subject_key
            (some v, { db with assignments := db.assignments ++ [⟨eid, subject_key, v⟩] })

-- ---------------------------------------------------------------------------
-- DecisionContext and the enrichment pipelines (engine.py)
-- ---------------------------------------------------------------------------

/-- A metadata value (Python scalar or small structure stored in the
free-form metadata mapping). -/
inductive MVal where
  | num (q : ℚ)
  | str (s : String)
  | boolean (b : Bool)
  | vnone
  | strs (l : List String)
  deriving DecidableEq, Repr

/-- A metadata mapping (Python dict, insertion-ordered). -/
abbrev MetaMap : Type := List (String × MVal)

/-- Python dict merge as in a ⟨ starred ⟩ literal: entries of the second
dict inserted into the first in order, overwriting on key collision. -/
def dictMerge (a b : MetaMap) : MetaMap := b.foldl (fun m p => dictInsert m p.1 p.2) a

/-- Modelled from the spec: DecisionContext (schemas.py is not in the
source tree; fields follow spec section 3 and the reads in engine.py) —
monetary amount in minor units, currency, network, card-range id,
issuer country, entry mode, attempt number, optional risk and
device-trust scores, merchant id, passkey support, a free-form metadata
mapping, and optional experiment/subject identifiers. -/
structure DecisionContext where
  amount_minor : ℤ
  currency : String
  network : Option String
  card_bin : Option String
  issuer_country : Option String
  entry_mode : Option String
  attempt_number : ℤ
  risk_score : Option ℚ
  device_trust_score : Option ℚ
  merchant_id : String
  supports_passkey : Bool
  metadata : MetaMap
  experiment_id : Option String
  subject_key : Option String
  deriving DecidableEq, Repr

/-- The aliasing state of the local name enriched inside a decide_*
method: the caller's ctx object, the object enriched refers to, and
whether the two are the same object. -/
structure ObjState where
  orig : DecisionContext
  enr : DecisionContext
  aliased : Bool

/-- At entry of a pipeline the local name is bound to ctx itself. -/
def mkAlias (c : DecisionContext) : ObjState := ⟨c, c, true⟩

/-- enriched = <object>.model_copy(): a fresh object with the same field
values; the local name no longer aliases ctx. -/
def copyEnriched (st : ObjState) : ObjState := ⟨st.orig, st.enr, false⟩

/-- enriched.metadata = m: rebinding the metadata attribute writes
through to the caller's ctx exactly when enriched aliases it. -/
def setEnrMeta (st : ObjState) (m : MetaMap) : ObjState :=
  let e := { st.enr with metadata := m }
  ⟨if st.aliased then e else st.orig, e, st.aliased⟩

/-- enriched.risk_score = r, with the same write-through rule. -/
def setEnrRisk (st : ObjState) (r : Option ℚ) : ObjState :=
  let e := { st.enr with risk_score := r }
  ⟨if st.aliased then e else st.orig, e, st.aliased⟩

/-- A risk-model response (risk_score absent when the serving payload
lacks it; risk_tier already defaulted to "" by .get).  none stands for
a call that timed out, errored, or returned an empty dict. -/
structure RiskRes where
  risk_score : Option ℚ
  risk_tier : String
  deriving DecidableEq, Repr

/-- An approval-model response. -/
structure ApprovalRes where
  approval_probability : Option ℚ
  model_version : String
  deriving DecidableEq, Repr

/-- A retry-model response; delay_seconds models the value of the
retry_delay_seconds-or-suggested_delay_s chain. -/
structure RetryMLRes where
  retry_success_probability : Option ℚ
  should_retry : Bool
  model_version : String
  delay_seconds : Option ℚ
  deriving DecidableEq, Repr

/-- A routing-model response. -/
structure RoutingMLRes where
  recommended_solution : Option String
  confidence : ℚ
  alternatives : List String
  deriving DecidableEq, Repr

/-- An agent recommendation row as produced by the Lakebase reader. -/
structure RecRow where
  action_summary : String
  confidence : ℚ
  expected_impact_pct : ℚ
  deriving DecidableEq, Repr

/-- Prefix every key of a vector-search stats dict. -/
def prefixKeys (p : String) (m : MetaMap) : MetaMap := m.map fun kv => (p ++ kv.1, kv.2)

/-- DecisionEngine._enrich_with_ml as a state transformer on the
aliasing state: disabled or unavailable returns ctx itself (still
aliased); otherwise the context is copied and the risk / approval
results are merged into the copy's metadata (the risk score is also
written onto the copy when the context had none).  A risk score of
exactly 0.0 is falsy in Python, so the stored ml_risk_score becomes
None in that case. -/
def enrichWithMLSt (st : ObjState) (enabled svcAvail : Bool)
    (risk : Option RiskRes) (approval : Option ApprovalRes) : ObjState :=
  if ¬(enabled ∧ svcAvail) then st
  else
    let st := copyEnriched st
    let st :=
      match risk with
      | none => st
      | some r =>
        let st :=
          match r.risk_score, st.enr.risk_score with
          | some q, none => setEnrRisk st (some q)
          | _, _ => st
        setEnrMeta st (dictMerge st.enr.metadata
          [("ml_risk_score",
            match r.risk_score with
            | some q => if q ≠ 0 then .num q else .vnone
            | none => .vnone),
           ("ml_risk_tier", .str r.risk_tier)])
    match approval with
    | none => st
    | some a =>
      match a.approval_probability with
      | none => st
      | some p =>
        setEnrMeta st (dictMerge st.enr.metadata
          [("ml_approval_probability", .num p),
           ("ml_model_version", .str a.model_version)])

/-- Merge of agent-recommendation metadata used by
decide_authentication. -/
def agentMetaAuth (top : RecRow) : MetaMap :=
  [("agent_recommendation", .str top.action_summary),
   ("agent_confidence", .num top.confidence),
   ("agent_expected_impact", .num top.expected_impact_pct)]

/-- Merge of agent-recommendation metadata used by decide_retry and
decide_routing. -/
def agentMetaShort (top : RecRow) : MetaMap :=
  [("agent_recommendation", .str top.action_summary),
   ("agent_confidence", .num top.confidence)]

/-- The enrichment prefix of decide_authentication (engine.py
lines 552-577): ML enrichment, vector-search merge, agent
recommendation merge, streaming-feature merge; every metadata
assignment happens on a fresh model_copy.  Returns (state of the
caller's ctx object after the call, the enriched context). -/
def authEnrichChain (ctx : DecisionContext) (enabled svcAvail : Bool)
    (risk : Option RiskRes) (approval : Option ApprovalRes)
    (vs : Option MetaMap) (recs : List RecRow)
    (streaming : List (String × Option ℚ)) : DecisionContext × DecisionContext :=
  let st := enrichWithMLSt (mkAlias ctx) enabled svcAvail risk approval
  let st :=
    match vs with
    | none => st
    | some v =>
      let st := copyEnriched st
      setEnrMeta st (dictMerge st.enr.metadata (prefixKeys "vs_" v))
  let st :=
    match recs with
    | [] => st
    | top :: _ =>
      let st := copyEnriched st
      setEnrMeta st (dictMerge st.enr.metadata (agentMetaAuth top))
  let st :=
    match streaming with
    | [] => st
    | _ :: _ =>
      let st := copyEnriched st
      setEnrMeta st (dictMerge st.enr.metadata
        (streaming.map fun (kv : String × Option ℚ) =>
          ("stream_" ++ kv.1, match kv.2 with | some q => MVal.num q | none => .vnone)))
  (st.orig, st.enr)

/-- The enrichment prefix of decide_retry (engine.py lines 626-658):
the context is copied only when a vector-search result arrived,
otherwise enriched starts out aliasing ctx; each subsequent merge
copies first. -/
def retryEnrichChain (ctx : DecisionContext) (vs : Option MetaMap)
    (recs : List RecRow) (retryRes : Option RetryMLRes) :
    DecisionContext × DecisionContext :=
  let st :=
    match vs with
    | none => mkAlias ctx
    | some v =>
      let st := copyEnriched (mkAlias ctx)
      setEnrMeta st (dictMerge st.enr.metadata (prefixKeys "vs_" v))
  let st :=
    match recs with
    | [] => st
    | top :: _ =>
      let st := copyEnriched st
      setEnrMeta st (dictMerge st.enr.metadata (agentMetaShort top))
  let st :=
    match retryRes with
    | none => st
    | some rr =>
      match rr.retry_success_probability with
      | none => st
      | some p =>
        let st := copyEnriched st
        setEnrMeta st (dictMerge st.enr.metadata
          (([("ml_retry_probability", MVal.num p),
            ("ml_should_retry", MVal.boolean rr.should_retry),
            ("ml_model_version", MVal.str rr.model_version)] : MetaMap) ++
           (match rr.delay_seconds with
            | some d => [("ml_retry_delay_seconds", MVal.num d)]
            | none => [])))
  (st.orig, st.enr)

/-- The enrichment prefix of decide_routing (engine.py lines 706-730);
the empty string is falsy, so an empty recommended route is merged
like an absent one. -/
def routingEnrichChain (ctx : DecisionContext) (vs : Option MetaMap)
    (recs : List RecRow) (routingRes : Option RoutingMLRes) :
    DecisionContext × DecisionContext :=
  let st :=
    match vs with
    | none => mkAlias ctx
    | some v =>
      let st := copyEnriched (mkAlias ctx)
      setEnrMeta st (dictMerge st.enr.metadata (prefixKeys "vs_" v))
  let st :=
    match recs with
    | [] => st
    | top :: _ =>
      let st := copyEnriched st
      setEnrMeta st (dictMerge st.enr.metadata (agentMetaShort top))
  let st :=
    match routingRes with
    | none => st
    | some rr =>
      match rr.recommended_solution with
      | none => st
      | some route =>
        if route = "" then st
        else
          let st := copyEnriched st
          setEnrMeta st (dictMerge st.enr.metadata
            [("ml_recommended_route", .str route),
             ("ml_route_confidence", .num rr.confidence),
             ("ml_route_alternatives", .strs rr.alternatives)])
  (st.orig, st.enr)

-- ---------------------------------------------------------------------------
-- Rule override layer (engine.py decide_* tails) and outcome recording
-- ---------------------------------------------------------------------------

/-- An approval_rules row as seen by the override layer. -/
structure RuleRow where
  id : String
  name : String
  action_summary : String
  priority : ℤ
  deriving DecidableEq, Repr

/-- The overridden reason string. -/
def overrideReason (top : RuleRow) : String :=
  "[Rule: " ++ top.name ++ "] " ++ top.action_summary

/-- Modelled from the spec: AuthDecisionOut (schemas.py is not in the
source tree; fields follow spec section 3 and 4.4) — audit id, the
substantive disposition (approve / challenge / decline), a reason
string, and an open metadata map for provenance. -/
structure AuthDecisionOut where
  audit_id : String
  decision : String
  reason : String
  metadata : MetaMap
  deriving DecidableEq, Repr

/-- Modelled from the spec: RetryDecisionOut — audit id, whether to
retry, backoff seconds, max attempts, reason. -/
structure RetryDecisionOut where
  audit_id : String
  should_retry : Bool
  backoff_seconds : ℤ
  max_attempts : ℤ
  reason : String
  deriving DecidableEq, Repr

/-- Modelled from the spec: RoutingDecisionOut — audit id, primary
route, ordered alternatives, reason. -/
structure RoutingDecisionOut where
  audit_id : String
  primary_route : String
  alternatives : List String
  reason : String
  deriving DecidableEq, Repr

/-- The rule-override tail of decide_authentication (engine.py
lines 591-602): when the rule engine is enabled and a rule matched,
replace the reason and merge two provenance keys into the decision's
metadata; nothing else is touched. -/
def authRuleOverride (enabled : Bool) (matching : List RuleRow)
    (d : AuthDecisionOut) : AuthDecisionOut :=
  if enabled then
    match matching with
    | [] => d
    | top :: _ =>
      { d with
        reason := overrideReason top
        metadata := dictMerge d.metadata
          [("matched_rule_id", .str top.id), ("matched_rule_name", .str top.name)] }
  else d

/-- The rule-override tail of decide_retry (engine.py lines 671-678):
only the reason is replaced. -/
def retryRuleOverride (enabled : Bool) (matching : List RuleRow)
    (d : RetryDecisionOut) : RetryDecisionOut :=
  if enabled then
    match matching with
    | [] => d
    | top :: _ => { d with reason := overrideReason top }
  else d

/-- The rule-override tail of decide_routing (engine.py
lines 745-751): only the reason is replaced. -/
def routingRuleOverride (enabled : Bool) (matching : List RuleRow)
    (d : RoutingDecisionOut) : RoutingDecisionOut :=
  if enabled then
    match matching with
    | [] => d
    | top :: _ => { d with reason := overrideReason top }
  else d

/-- A DecisionOutcome row (db_models.py). -/
structure OutcomeRow where
  audit_id : String
  decision_type : String
  outcome : String
  outcome_code : Option String
  outcome_reason : Option String
  latency_ms : Option ℤ
  extra : MetaMap
  deriving DecidableEq, Repr

/-- The backing session for record_outcome: its persisted outcome rows
and whether the add/commit write raises. -/
structure SessionState where
  outcomes : List OutcomeRow
  failsWrite : Bool
  deriving DecidableEq, Repr

/-- DecisionEngine.record_outcome (engine.py lines 828-859): False when
no session is attached; on a write failure the exception is caught and
False is returned with nothing persisted; otherwise exactly one Outcome
row is appended and True returned.  Totality of this definition models
the never-raises contract (every exception is caught). -/
def record_outcome (session : Option SessionState)
    (audit_id decision_type outcome : String)
    (outcome_code outcome_reason : Option String) (latency_ms : Option ℤ)
    (metadata : Option MetaMap) : Bool × Option SessionState :=
  match session with
  | none => (false, none)
  | some s =>
    if s.failsWrite then (false, some s)
    else
      (true, some { s with outcomes := s.outcomes ++
        [⟨audit_id, decision_type, outcome, outcome_code, outcome_reason,
          latency_ms, metadata.getD []⟩] })

-- ---------------------------------------------------------------------------
-- Experiment results analysis (experiments.py get_experiment_results)
-- ---------------------------------------------------------------------------

/-- The per-variant approval rate (experiments.py line 199): approved /
outcomes when there are outcomes, None otherwise. -/
def approvalRate (approved outcomes : ℕ) : Option ℚ :=
  if 0 < outcomes then some ((approved : ℚ) / (outcomes : ℚ)) else none

/-- math.erf, modelled exactly: the Gauss error function. -/
noncomputable def erfFun (x : ℝ) : ℝ :=
  2 / Real.sqrt Real.pi * ∫ t in (0:ℝ)..x, Real.exp (-t ^ 2)

/-- experiments._normal_cdf: 0.5 * (1 + erf (x / sqrt 2)). -/
noncomputable def normalCdf (x : ℝ) : ℝ := (1 + erfFun (x / Real.sqrt 2)) / 2

/-- The lift computation (experiments.py lines 237-243) from the two
variants' outcome and approved counts: defined only when both variants
have outcomes, and guarded against a zero control rate. -/
def liftPct (c_n c_a t_n t_a : ℕ) : Option ℚ :=
  if 0 < c_n ∧ 0 < t_n then
    let c := (c_a : ℚ) / (c_n : ℚ)
    let t := (t_a : ℚ) / (t_n : ℚ)
    if 0 < c then some ((t - c) / c * 100) else none
  else none

/-- The pooled proportion (experiments.py line 246). -/
def pooledProp (c_n c_a t_n t_a : ℕ) : ℚ :=
  ((c_a : ℚ) + (t_a : ℚ)) / ((c_n : ℚ) + (t_n : ℚ))

/-- The square of the standard error (experiments.py line 248); the code
compares math.sqrt of this against zero, which is positive exactly when
this rational is. -/
def seSq (c_n c_a t_n t_a : ℕ) : ℚ :=
  pooledProp c_n c_a t_n t_a * (1 - pooledProp c_n c_a t_n t_a) *
    (1 / (c_n : ℚ) + 1 / (t_n : ℚ))

/-- The z statistic (experiments.py line 250). -/
noncomputable def zStat (c_n c_a t_n t_a : ℕ) : ℝ :=
  (((t_a : ℚ) / (t_n : ℚ) - (c_a : ℚ) / (c_n : ℚ) : ℚ) : ℝ) /
    Real.sqrt ((seSq c_n c_a t_n t_a : ℚ) : ℝ)

/-- The two-sided p-value (experiments.py lines 245-252): defined when
both variants have outcomes, the pooled proportion is strictly between
0 and 1, and the standard error is positive. -/
noncomputable def pValue (c_n c_a t_n t_a : ℕ) : Option ℝ :=
  if 0 < c_n ∧ 0 < t_n ∧ 0 < pooledProp c_n c_a t_n t_a ∧
      pooledProp c_n c_a t_n t_a < 1 ∧ 0 < seSq c_n c_a t_n t_a then
    some (2 * (1 - normalCdf |zStat c_n c_a t_n t_a|))
  else none

/-- is_significant (experiments.py line 253): a p-value was computed
and it is below 0.05. -/
def isSignificant (c_n c_a t_n t_a : ℕ) : Prop :=
  ∃ p, pValue c_n c_a t_n t_a = some p ∧ p < 1 / 20

open Classical

/-- The four recommendation outcomes of experiments.py lines 231 and
255-264, with the numbers that the textual templates interpolate. -/
inductive RecOut where
  | insufficient
  | graduate (lift : ℚ) (p : ℝ)
  | stopExperiment (lift : ℚ) (p : ℝ)
  | noDifference (p : ℝ)

/-- The recommendation computation (experiments.py lines 231-264).  In
the branch where a result was computed but is not significant, the
f-string at line 264 interpolates p_value with the literal format
specification ".4f if p_value else 'N/A'" (the conditional expression is
part of the spec text, not Python code): formatting a float with it
raises ValueError, and formatting None with any non-empty specification
raises TypeError, so that branch always raises instead of producing the
fourth template.  The comparison of the real-valued p against 0.05 uses
classical decidability. -/
noncomputable def recommendationResult (c_n c_a t_n t_a : ℕ) : Except PyErr RecOut :=
  if 0 < c_n ∧ 0 < t_n then
    match pValue c_n c_a t_n t_a with
    | some p =>
      if p < 1 / 20 then
        match liftPct c_n c_a t_n t_a with
        | some l =>
          if 0 < l then .ok (.graduate l p)
          else if l < 0 then .ok (.stopExperiment l p)
          else .ok (.noDifference p)
        | none => .ok (.noDifference p)
      else .error .valueError
    | none => .error .typeError
  else .ok .insufficient

-- ---------------------------------------------------------------------------
-- Claim C10: totality and parsing behaviour of _params_from_config
-- ---------------------------------------------------------------------------

/-- The config keys that _params_from_config reads through the _int
closure, in source order. -/
def intParamKeys : List String :=
  ["retry_max_attempts_control", "retry_max_attempts_treatment",
   "retry_backoff_recurring_control", "retry_backoff_recurring_treatment",
   "retry_backoff_transient", "retry_backoff_soft_treatment",
   "ml_enrichment_timeout_ms"]

/-- Whether the stored value for a key parses to an infinite float. -/
def storesInf (rows : List (String × String)) (k : String) : Bool :=
  match kvGet rows k with
  | none => false
  | some v =>
    match pyParseFloat v with
    | some .inf => true
    | some .ninf => true
    | _ => false

/-- A previously cached snapshot distinct from the defaults, as built by
an earlier successful refresh. -/
def prevSnapshotParams : DecisionParams :=
  { defaultParams with risk_threshold_high := .finite (1/2) }

/-- The three routes of the spec's concrete ranking example. -/
def routeRowsABC : List RouteRow :=
  [⟨"A", 92, 400, 3/10⟩, ⟨"B", 92, 350, 3/10⟩, ⟨"C", 80, 200, 1/10⟩]

/-- At most one assignment row per (experiment, subject) pair. -/
def pairUnique (db : AppDb) : Prop :=
  ∀ e s, (db.assignments.filter fun a =>
    decide (a.experiment_id = e ∧ a.subject_key = s)).length ≤ 1

/-- A store already holding an assignment for the pair (e1, s1). -/
def dbWithAssignment : AppDb :=
  ⟨[⟨"e1", "exp one", "running"⟩], [⟨"e1", "s1", "control"⟩]⟩

theorem pyIntField_ok_of_not_inf (rows : List (String × String)) (k : String)
    (d : ℤ) (h : storesInf rows k = false) : ∃ n, pyIntField rows k d = .ok n := by
  rcases hk : kvGet rows k with _ | v
  · exact ⟨d, by simp only [pyIntField, hk]⟩
  · rcases hp : pyParseFloat v with _ | f
    · exact ⟨d, by simp only [pyIntField, hk, hp]⟩
    · cases f with
      | finite q =>
        exact ⟨ratTrunc q, by simp only [pyIntField, hk, hp, pyIntOfFloat]⟩
      | inf =>
        simp only [storesInf, hk, hp] at h
        exact absurd h (by simp)
      | ninf =>
        simp only [storesInf, hk, hp] at h
        exact absurd h (by simp)
      | nan => exact ⟨d, by simp only [pyIntField, hk, hp, pyIntOfFloat]⟩

theorem paramsFromConfig_fields (rows : List (String × String)) (p : DecisionParams)
    (h : paramsFromConfig rows = .ok p) :
    p.risk_threshold_high = pyFloatField rows "risk_threshold_high" (3/4) ∧
    p.risk_threshold_medium = pyFloatField rows "risk_threshold_medium" (7/20) ∧
    p.device_trust_low_risk = pyFloatField rows "device_trust_low_risk" (9/10) ∧
    p.ml_enrichment_enabled = pyBoolField rows "ml_enrichment_enabled" true ∧
    p.rule_engine_enabled = pyBoolField rows "rule_engine_enabled" true ∧
    p.routing_domestic_country = (kvGet rows "routing_domestic_country").getD "BR" ∧
    pyIntField rows "retry_max_attempts_control" 3 = .ok p.retry_max_attempts_control ∧
    pyIntField rows "retry_max_attempts_treatment" 4 = .ok p.retry_max_attempts_treatment ∧
    pyIntField rows "retry_backoff_recurring_control" 900 =
      .ok p.retry_backoff_recurring_control ∧
    pyIntField rows "retry_backoff_recurring_treatment" 300 =
      .ok p.retry_backoff_recurring_treatment ∧
    pyIntField rows "retry_backoff_transient" 60 = .ok p.retry_backoff_transient ∧
    pyIntField rows "retry_backoff_soft_treatment" 1800 =
      .ok p.retry_backoff_soft_treatment ∧
    pyIntField rows "ml_enrichment_timeout_ms" 2000 = .ok p.ml_enrichment_timeout_ms := by
  unfold paramsFromConfig at h
  cases h1 : pyIntField rows "retry_max_attempts_control" 3 <;> rw [h1] at h <;>
    simp only [bind, Except.bind] at h
  case error e => exact absurd h (by simp)
  cases h2 : pyIntField rows "retry_max_attempts_treatment" 4 <;> rw [h2] at h <;>
    simp only [bind, Except.bind] at h
  case error e => exact absurd h (by simp)
  cases h3 : pyIntField rows "retry_backoff_recurring_control" 900 <;> rw [h3] at h <;>
    simp only [bind, Except.bind] at h
  case error e => exact absurd h (by simp)
  cases h4 : pyIntField rows "retry_backoff_recurring_treatment" 300 <;> rw [h4] at h <;>
    simp only [bind, Except.bind] at h
  case error e => exact absurd h (by simp)
  cases h5 : pyIntField rows "retry_backoff_transient" 60 <;> rw [h5] at h <;>
    simp only [bind, Except.bind] at h
  case error e => exact absurd h (by simp)
  cases h6 : pyIntField rows "retry_backoff_soft_treatment" 1800 <;> rw [h6] at h <;>
    simp only [bind, Except.bind] at h
  case error e => exact absurd h (by simp)
  cases h7 : pyIntField rows "ml_enrichment_timeout_ms" 2000 <;> rw [h7] at h <;>
    simp only [bind, Except.bind] at h
  case error e => exact absurd h (by simp)
  simp only [pure, Except.pure, Except.ok.injEq] at h
  subst h
  refine ⟨rfl, rfl, rfl, rfl, rfl, rfl, ?_, ?_, ?_, ?_, ?_, ?_, ?_⟩ <;>
    simp [h1, h2, h3, h4, h5, h6, h7]

/-- Claim C10, counterexample: _params_from_config is not total — a
stored value of "inf" for an integer-typed key makes the inner int()
call raise OverflowError, which the except clause (catching ValueError
and TypeError) does not intercept, so the call raises instead of
returning a DecisionParams. -/
theorem paramsFromConfig_raises_on_inf :
    paramsFromConfig [("retry_max_attempts_control", "inf")] =
      .error .overflowError := by rfl

/-- Claim C10 (corrected): _params_from_config returns a DecisionParams
without raising for every list of key-value rows in which no
integer-typed key stores a value parsing to an infinite float (on such
a value int() raises an uncaught OverflowError); every float-typed key
whose stored value fails float parsing yields the field's hard-coded
default, every integer-typed key whose stored value fails float parsing
yields the default, and a boolean flag is true exactly when its
effective value — the stored value if one exists, else the Python str()
of the default — lower-cases to "true", "1" or "yes". -/
theorem paramsFromConfig_amended :
    (∀ rows : List (String × String),
      (∀ k ∈ intParamKeys, storesInf rows k = false) →
      ∃ p, paramsFromConfig rows = .ok p) ∧
    (∀ (rows : List (String × String)) (k : String) (d : ℚ) (v : String),
      kvGet rows k = some v → pyParseFloat v = none →
      pyFloatField rows k d = .finite d) ∧
    (∀ (rows : List (String × String)) (k : String) (d : ℤ) (v : String),
      kvGet rows k = some v → pyParseFloat v = none →
      pyIntField rows k d = .ok d) ∧
    (∀ (rows : List (String × String)) (k : String) (d : Bool),
      pyBoolField rows k d = true ↔
        (strLower ((kvGet rows k).getD (if d then "True" else "False")) = "true" ∨
         strLower ((kvGet rows k).getD (if d then "True" else "False")) = "1" ∨
         strLower ((kvGet rows k).getD (if d then "True" else "False")) = "yes")) ∧
    (∀ (rows : List (String × String)) (p : DecisionParams),
      paramsFromConfig rows = .ok p →
      p.risk_threshold_high = pyFloatField rows "risk_threshold_high" (3/4) ∧
      p.ml_enrichment_enabled = pyBoolField rows "ml_enrichment_enabled" true ∧
      pyIntField rows "retry_max_attempts_control" 3 =
        .ok p.retry_max_attempts_control) := by
  refine ⟨?_, ?_, ?_, ?_, ?_⟩
  · intro rows h
    obtain ⟨n1, e1⟩ := pyIntField_ok_of_not_inf rows "retry_max_attempts_control" 3
      (h _ (by simp [intParamKeys]))
    obtain ⟨n2, e2⟩ := pyIntField_ok_of_not_inf rows "retry_max_attempts_treatment" 4
      (h _ (by simp [intParamKeys]))
    obtain ⟨n3, e3⟩ := pyIntField_ok_of_not_inf rows "retry_backoff_recurring_control" 900
      (h _ (by simp [intParamKeys]))
    obtain ⟨n4, e4⟩ := pyIntField_ok_of_not_inf rows "retry_backoff_recurring_treatment" 300
      (h _ (by simp [intParamKeys]))
    obtain ⟨n5, e5⟩ := pyIntField_ok_of_not_inf rows "retry_backoff_transient" 60
      (h _ (by simp [intParamKeys]))
    obtain ⟨n6, e6⟩ := pyIntField_ok_of_not_inf rows "retry_backoff_soft_treatment" 1800
      (h _ (by simp [intParamKeys]))
    obtain ⟨n7, e7⟩ := pyIntField_ok_of_not_inf rows "ml_enrichment_timeout_ms" 2000
      (h _ (by simp [intParamKeys]))
    exact ⟨_, by
      unfold paramsFromConfig
      rw [e1, e2, e3, e4, e5, e6, e7]
      rfl⟩
  · intro rows k d v hk hp
    simp only [pyFloatField, hk, hp]
  · intro rows k d v hk hp
    simp only [pyIntField, hk, hp]
  · intro rows k d
    unfold pyBoolField
    constructor
    · intro h
      rcases Bool.or_eq_true_iff.mp h with h | h
      · rcases Bool.or_eq_true_iff.mp h with h | h
        · exact Or.inl (by simpa using h)
        · exact Or.inr (Or.inl (by simpa using h))
      · exact Or.inr (Or.inr (by simpa using h))
    · intro h
      rcases h with h | h | h <;> simp [h]
  · intro rows p h
    obtain ⟨f1, _, _, f4, _, _, f7, _⟩ := paramsFromConfig_fields rows p h
    exact ⟨f1, f4, f7⟩

/-- Claim C10, witness for the corrected statement at a concrete row
list: a garbled numeric value falls back to the default, a cased "YES"
turns the flag on, and the build returns normally. -/
theorem paramsFromConfig_amended_witness :
    (∃ p, paramsFromConfig
      [("risk_threshold_high", "abc"), ("ml_enrichment_enabled", "YES")] = .ok p) ∧
    pyFloatField [("risk_threshold_high", "abc"), ("ml_enrichment_enabled", "YES")]
      "risk_threshold_high" (3/4) = .finite (3/4) ∧
    (pyBoolField [("risk_threshold_high", "abc"), ("ml_enrichment_enabled", "YES")]
      "ml_enrichment_enabled" true = true) :=
  ⟨paramsFromConfig_amended.1 _ (by decide),
   paramsFromConfig_amended.2.1 _ _ _ "abc" (by decide) (by decide),
   (paramsFromConfig_amended.2.2.2.1 _ "ml_enrichment_enabled" true).mpr (by decide)⟩

-- ---------------------------------------------------------------------------
-- Claim C2: cache behaviour on load failure
-- ---------------------------------------------------------------------------

/-- Claim C2, counterexample: with a previous snapshot in the cache
(risk_threshold_high = 0.5, fetched at 0) and an expired TTL, a load
that raises does not keep serving the previous snapshot — the refresh
stores and returns the hard-coded defaults, discarding the previous
snapshot. -/
theorem loadConfig_discards_previous_snapshot :
    loadConfig ⟨some prevSnapshotParams, 0⟩ 100 true (.error ()) =
      .ok (defaultParams, ⟨some defaultParams, 100⟩) ∧
    defaultParams ≠ prevSnapshotParams := by
  constructor
  · rfl
  · intro h
    have hfield := congrArg DecisionParams.risk_threshold_high h
    simp only [defaultParams, prevSnapshotParams, PyFloat.finite.injEq] at hfield
    norm_num at hfield

/-- Claim C2 (corrected): when the TTL has expired (or nothing was ever
cached) and the load raises, both _load_config and _load_decline_codes
catch the error and refresh the cache with hard-coded defaults (the
default DecisionParams, an empty decline-code map), replacing any
previous snapshot rather than keeping it; the raised error never
propagates to the caller. -/
theorem load_defaults_on_failure :
    (∀ (c : CacheEntry DecisionParams) (now : ℤ),
      c.data = none ∨ c.isStale now = true →
      loadConfig c now true (.error ()) =
        .ok (defaultParams, ⟨some defaultParams, now⟩)) ∧
    (∀ (c : CacheEntry (List (String × RetryableCode))) (now : ℤ),
      c.data = none ∨ c.isStale now = true →
      loadDeclineCodes c now true (.error ()) = ([], ⟨some [], now⟩)) := by
  constructor
  · intro c now h
    rcases hd : c.data with _ | d
    · simp only [loadConfig, hd]
      rfl
    · rcases hs : c.isStale now with _ | _
      · rcases h with h | h
        · rw [hd] at h; exact absurd h (by simp)
        · rw [hs] at h; exact absurd h (by simp)
      · simp only [loadConfig, hd, hs]
        rfl
  · intro c now h
    rcases hd : c.data with _ | d
    · simp only [loadDeclineCodes, hd]
      rfl
    · rcases hs : c.isStale now with _ | _
      · rcases h with h | h
        · rw [hd] at h; exact absurd h (by simp)
        · rw [hs] at h; exact absurd h (by simp)
      · simp only [loadDeclineCodes, hd, hs]
        rfl

/-- Claim C2, witness for the corrected statement: a stale cache holding
a previous config snapshot is refreshed to the defaults when the read
raises, and a stale decline-code cache is refreshed to the empty map. -/
theorem load_defaults_on_failure_witness :
    loadConfig ⟨some prevSnapshotParams, 0⟩ 100 true (.error ()) =
      .ok (defaultParams, ⟨some defaultParams, 100⟩) ∧
    loadDeclineCodes ⟨some [("04", ⟨"04", "soft", 900, 3⟩)], 0⟩ 100 true (.error ()) =
      ([], ⟨some [], 100⟩) :=
  ⟨load_defaults_on_failure.1 ⟨some prevSnapshotParams, 0⟩ 100 (by decide),
   load_defaults_on_failure.2 ⟨some [("04", ⟨"04", "soft", 900, 3⟩)], 0⟩ 100 (by decide)⟩

-- ---------------------------------------------------------------------------
-- Claim C4: route ranking
-- ---------------------------------------------------------------------------

theorem mem_stableInsert {α : Type} (le : α → α → Bool) (x a : α) (l : List α) :
    a ∈ stableInsert le x l ↔ a = x ∨ a ∈ l := by
  induction l with
  | nil => simp [stableInsert]
  | cons y ys ih =>
    by_cases h : le y x = true
    · simp only [stableInsert, h, if_true, List.mem_cons, ih]
      tauto
    · simp only [stableInsert, h, if_false, Bool.false_eq_true, List.mem_cons]

theorem stableInsert_pairwise {α : Type} (le : α → α → Bool)
    (htot : ∀ a b, le a b = true ∨ le b a = true)
    (htrans : ∀ a b c, le a b = true → le b c = true → le a c = true)
    (x : α) (l : List α) (hl : l.Pairwise fun a b => le a b = true) :
    (stableInsert le x l).Pairwise fun a b => le a b = true := by
  induction l with
  | nil => simp [stableInsert]
  | cons y ys ih =>
    rw [List.pairwise_cons] at hl
    obtain ⟨hy, hys⟩ := hl
    by_cases h : le y x = true
    · simp only [stableInsert, h, if_true]
      rw [List.pairwise_cons]
      refine ⟨?_, ih hys⟩
      intro b hb
      rcases (mem_stableInsert le x b ys).mp hb with rfl | hb
      · exact h
      · exact hy b hb
    · simp only [stableInsert, h, if_false, Bool.false_eq_true]
      rw [List.pairwise_cons]
      have hxy : le x y = true := (htot x y).resolve_right (by simpa using h)
      constructor
      · intro b hb
        rcases List.mem_cons.mp hb with rfl | hb
        · exact hxy
        · exact htrans x y b hxy (hy b hb)
      · exact List.pairwise_cons.mpr ⟨hy, hys⟩

theorem stableSort_pairwise {α : Type} (le : α → α → Bool)
    (htot : ∀ a b, le a b = true ∨ le b a = true)
    (htrans : ∀ a b c, le a b = true → le b c = true → le a c = true)
    (l : List α) :
    (stableSort le l).Pairwise fun a b => le a b = true := by
  have key : ∀ (l acc : List α), acc.Pairwise (fun a b => le a b = true) →
      (l.foldl (fun acc x => stableInsert le x acc) acc).Pairwise
        fun a b => le a b = true := by
    intro l
    induction l with
    | nil => intro acc h; exact h
    | cons x xs ih =>
      intro acc h
      exact ih _ (stableInsert_pairwise le htot htrans x acc h)
  exact key l [] (by simp)

theorem routeLe_iff (a b : RouteScore) :
    routeLe a b = true ↔
      (-a.approval_rate_pct < -b.approval_rate_pct ∨
        (-a.approval_rate_pct = -b.approval_rate_pct ∧
          (a.avg_latency_ms < b.avg_latency_ms ∨
            (a.avg_latency_ms = b.avg_latency_ms ∧ a.cost_score ≤ b.cost_score)))) := by
  simp [routeLe, Bool.or_eq_true, Bool.and_eq_true, decide_eq_true_eq]

theorem routeLe_total (a b : RouteScore) : routeLe a b = true ∨ routeLe b a = true := by
  rw [routeLe_iff, routeLe_iff]
  rcases lt_trichotomy (-a.approval_rate_pct) (-b.approval_rate_pct) with h1 | h1 | h1
  · exact Or.inl (Or.inl h1)
  · rcases lt_trichotomy a.avg_latency_ms b.avg_latency_ms with h2 | h2 | h2
    · exact Or.inl (Or.inr ⟨h1, Or.inl h2⟩)
    · rcases le_total a.cost_score b.cost_score with h3 | h3
      · exact Or.inl (Or.inr ⟨h1, Or.inr ⟨h2, h3⟩⟩)
      · exact Or.inr (Or.inr ⟨h1.symm, Or.inr ⟨h2.symm, h3⟩⟩)
    · exact Or.inr (Or.inr ⟨h1.symm, Or.inl h2⟩)
  · exact Or.inr (Or.inl h1)

theorem routeLe_trans (a b c : RouteScore) (hab : routeLe a b = true)
    (hbc : routeLe b c = true) : routeLe a c = true := by
  rw [routeLe_iff] at hab hbc ⊢
  rcases hab with h1 | ⟨h1, h2⟩
  · rcases hbc with h3 | ⟨h3, h4⟩
    · exact Or.inl (h1.trans h3)
    · exact Or.inl (h3 ▸ h1)
  · rcases hbc with h3 | ⟨h3, h4⟩
    · exact Or.inl (h1 ▸ h3)
    · refine Or.inr ⟨h1.trans h3, ?_⟩
      rcases h2 with h2 | ⟨h2, h2c⟩
      · rcases h4 with h4 | ⟨h4, _⟩
        · exact Or.inl (h2.trans h4)
        · exact Or.inl (h4 ▸ h2)
      · rcases h4 with h4 | ⟨h4, h4c⟩
        · exact Or.inl (h2 ▸ h4)
        · exact Or.inr ⟨h2.trans h4, h2c.trans h4c⟩

/-- Claim C4, counterexample: on the spec's example routes the refresh
does not produce the order A, B, C — A and B tie on approval rate and
the tie is broken by lower latency, so B (350 ms) ranks before A
(400 ms): the computed order is B, A, C. -/
theorem routeScoresList_order_counterexample :
    (routeScoresList routeRowsABC).map RouteScore.route_name ≠ ["A", "B", "C"] ∧
    (routeScoresList routeRowsABC).map RouteScore.route_name = ["B", "A", "C"] := by
  constructor
  · intro h
    have h2 : (routeScoresList routeRowsABC).map RouteScore.route_name
        = ["B", "A", "C"] := by decide
    rw [h2] at h
    simp at h
  · decide

/-- Claim C4 (corrected): route ranking is computed once at refresh as a
composite ordering — higher approval rate better, ties broken by lower
latency, then by lower cost; the refresh stores the pre-ranked list and
a non-stale read returns it as stored; on the spec's example routes
A(92, 400 ms, 0.3), B(92, 350 ms, 0.3), C(80, 200 ms, 0.1) the ranked
list is B, A, C (the approval-rate tie resolves to the lower-latency
route B first, contrary to the order the claim states). -/
theorem routeScoresList_ranking :
    ((routeScoresList routeRowsABC).map RouteScore.route_name = ["B", "A", "C"]) ∧
    (∀ rows : List RouteRow,
      (routeScoresList rows).Pairwise fun a b => routeLe a b = true) ∧
    (∀ (cache : CacheEntry (List RouteScore)) (now : ℤ) (d : List RouteScore)
      (hr : Bool) (read : Except Unit (List RouteRow)),
      cache.data = some d → cache.isStale now = false →
      loadRoutes cache now hr read = (d, cache)) ∧
    (∀ (cache : CacheEntry (List RouteScore)) (now : ℤ) (rows : List RouteRow),
      (cache.data = none ∨ cache.isStale now = true) → rows ≠ [] →
      loadRoutes cache now true (.ok rows) =
        (routeScoresList rows, ⟨some (routeScoresList rows), now⟩)) := by
  refine ⟨by decide, ?_, ?_, ?_⟩
  · intro rows
    exact stableSort_pairwise routeLe routeLe_total routeLe_trans _
  · intro cache now d hr read hd hs
    simp only [loadRoutes, hd, hs]
  · intro cache now rows h hrows
    rcases hd : cache.data with _ | d
    · simp only [loadRoutes, hd]
      simp [hrows]
    · rcases hs : cache.isStale now with _ | _
      · rcases h with h | h
        · rw [hd] at h; exact absurd h (by simp)
        · rw [hs] at h; exact absurd h (by simp)
      · simp only [loadRoutes, hd, hs]
        simp [hrows]

/-- Claim C4, witness for the corrected statement: a non-stale cache
read returns the stored ranked list unchanged, and a stale refresh with
the example rows stores their ranking. -/
theorem routeScoresList_ranking_witness :
    loadRoutes ⟨some (routeScoresList routeRowsABC), 0⟩ 10 true (.ok []) =
      (routeScoresList routeRowsABC, ⟨some (routeScoresList routeRowsABC), 0⟩) ∧
    loadRoutes ⟨none, 0⟩ 0 true (.ok routeRowsABC) =
      (routeScoresList routeRowsABC, ⟨some (routeScoresList routeRowsABC), 0⟩) :=
  ⟨routeScoresList_ranking.2.2.1 _ 10 _ true (.ok []) rfl (by decide),
   routeScoresList_ranking.2.2.2 _ 0 routeRowsABC (Or.inl rfl) (by decide)⟩

-- ---------------------------------------------------------------------------
-- Claims C1 and C6: experiment assignment
-- ---------------------------------------------------------------------------

/-- Claim C1, counterexample: the /assign endpoint does not return an
existing assignment verbatim and does not create only when absent — on
a store already holding (e1, s1) → control it happily inserts a second
row (e1, s1) → treatment with the caller-chosen variant, after which
the pair maps to two different variants. -/
theorem assignEndpoint_duplicates_pair :
    assignEndpoint dbWithAssignment "e1" "s1" "treatment" =
      .ok (⟨"e1", "s1", "treatment"⟩,
        ⟨[⟨"e1", "exp one", "running"⟩],
         [⟨"e1", "s1", "control"⟩, ⟨"e1", "s1", "treatment"⟩]⟩) ∧
    (⟨"e1", "s1", "treatment"⟩ : AssignmentRec) ≠ ⟨"e1", "s1", "control"⟩ ∧
    (([⟨"e1", "s1", "control"⟩, ⟨"e1", "s1", "treatment"⟩] : List AssignmentRec).filter
      fun a => decide (a.experiment_id = "e1" ∧ a.subject_key = "s1")).length = 2 := by
  refine ⟨by rfl, by decide, by decide⟩

theorem getOrAssign_found (db : AppDb) (eid s : String) (a : AssignmentRec)
    (he : eid ≠ "") (hs : s ≠ "")
    (hfind : (db.assignments.find? fun x =>
      decide (x.experiment_id = eid ∧ x.subject_key = s)) = some a) :
    getOrAssignVariant db (some eid) s = (some a.variant, db) := by
  simp only [getOrAssignVariant]
  rw [if_neg (by simp [he, hs]), hfind]

theorem getOrAssign_insert (db : AppDb) (eid s : String) (exp : ExperimentRec)
    (he : eid ≠ "") (hs : s ≠ "")
    (hfind : (db.assignments.find? fun x =>
      decide (x.experiment_id = eid ∧ x.subject_key = s)) = none)
    (hexp : (db.experiments.find? fun x => decide (x.id = eid)) = some exp)
    (hst : exp.status = "running" ∨ exp.status = "draft") :
    getOrAssignVariant db (some eid) s =
      (some (hashVariant s),
       { db with assignments := db.assignments ++ [⟨eid, s, hashVariant s⟩] }) := by
  simp only [getOrAssignVariant]
  rw [if_neg (by simp [he, hs])]
  simp only [hfind, hexp]
  rw [if_neg (by rcases hst with h | h <;> simp [h])]

theorem getOrAssign_not_assignable (db : AppDb) (eid s : String)
    (exp : ExperimentRec) (he : eid ≠ "") (hs : s ≠ "")
    (hfind : (db.assignments.find? fun x =>
      decide (x.experiment_id = eid ∧ x.subject_key = s)) = none)
    (hexp : (db.experiments.find? fun x => decide (x.id = eid)) = some exp)
    (h1 : exp.status ≠ "running") (h2 : exp.status ≠ "draft") :
    getOrAssignVariant db (some eid) s = (none, db) := by
  simp only [getOrAssignVariant]
  rw [if_neg (by simp [he, hs])]
  simp only [hfind, hexp]
  rw [if_pos ⟨h1, h2⟩]

theorem getOrAssign_no_experiment (db : AppDb) (eid s : String)
    (he : eid ≠ "") (hs : s ≠ "")
    (hfind : (db.assignments.find? fun x =>
      decide (x.experiment_id = eid ∧ x.subject_key = s)) = none)
    (hexp : (db.experiments.find? fun x => decide (x.id = eid)) = none) :
    getOrAssignVariant db (some eid) s = (none, db) := by
  simp only [getOrAssignVariant]
  rw [if_neg (by simp [he, hs])]
  simp only [hfind, hexp]

theorem getOrAssign_cases (db : AppDb) (eid s : String) :
    getOrAssignVariant db (some eid) s = (none, db) ∨
    (∃ a, (db.assignments.find? fun x =>
        decide (x.experiment_id = eid ∧ x.subject_key = s)) = some a ∧
      getOrAssignVariant db (some eid) s = (some a.variant, db)) ∨
    ((db.assignments.find? fun x =>
        decide (x.experiment_id = eid ∧ x.subject_key = s)) = none ∧
      getOrAssignVariant db (some eid) s =
        (some (hashVariant s),
         { db with assignments := db.assignments ++ [⟨eid, s, hashVariant s⟩] })) := by
  by_cases hg : eid = "" ∨ s = ""
  · left
    simp only [getOrAssignVariant]
    rw [if_pos hg]
  · push_neg at hg
    rcases hfind : db.assignments.find? fun x =>
        decide (x.experiment_id = eid ∧ x.subject_key = s) with _ | a
    · rcases hexp : db.experiments.find? fun x => decide (x.id = eid) with _ | exp
      · exact Or.inl (getOrAssign_no_experiment db eid s hg.1 hg.2 hfind hexp)
      · by_cases hst : exp.status = "running" ∨ exp.status = "draft"
        · exact Or.inr (Or.inr ⟨hfind,
            getOrAssign_insert db eid s exp hg.1 hg.2 hfind hexp hst⟩)
        · push_neg at hst
          exact Or.inl
            (getOrAssign_not_assignable db eid s exp hg.1 hg.2 hfind hexp hst.1 hst.2)
    · exact Or.inr (Or.inl ⟨a, hfind, getOrAssign_found db eid s a hg.1 hg.2 hfind⟩)

/-- Claim C1 (corrected): only the decision-path variant resolver has
idempotent upsert-on-read semantics — it returns a stored assignment
verbatim and creates one only when absent, preserving the
at-most-one-assignment-per-pair invariant; the /assign endpoint instead
unconditionally inserts a fresh assignment row with the caller-supplied
variant whenever the experiment exists and is assignable (the table has
no uniqueness constraint on the pair), so a pair is guaranteed a single
variant only when assigned through the decision path. -/
theorem assignment_semantics_amended :
    (∀ (db : AppDb) (eid s : String) (a : AssignmentRec), eid ≠ "" → s ≠ "" →
      (db.assignments.find? fun x =>
        decide (x.experiment_id = eid ∧ x.subject_key = s)) = some a →
      getOrAssignVariant db (some eid) s = (some a.variant, db)) ∧
    (∀ (db : AppDb) (eid : Option String) (s : String),
      pairUnique db → pairUnique (getOrAssignVariant db eid s).2) ∧
    (∀ (db : AppDb) (eid s v : String) (exp : ExperimentRec),
      (db.experiments.find? fun x => decide (x.id = eid)) = some exp →
      (exp.status = "running" ∨ exp.status = "draft") →
      assignEndpoint db eid s v =
        .ok (⟨eid, s, v⟩, { db with assignments := db.assignments ++ [⟨eid, s, v⟩] })) := by
  refine ⟨getOrAssign_found, ?_, ?_⟩
  · intro db eid s hu
    rcases eid with _ | e
    · exact hu
    · rcases getOrAssign_cases db e s with h | ⟨a, _, h⟩ | ⟨hfind, h⟩
      · rw [h]; exact hu
      · rw [h]; exact hu
      · rw [h]
        intro e' s'
        simp only [List.filter_append]
        by_cases hmatch : e' = e ∧ s' = s
        · obtain ⟨rfl, rfl⟩ := hmatch
          have hnil : (db.assignments.filter fun a =>
              decide (a.experiment_id = e' ∧ a.subject_key = s')) = [] := by
            rw [List.filter_eq_nil_iff]
            exact List.find?_eq_none.mp hfind
          rw [hnil]
          simp
        · have hz : (([⟨e, s, hashVariant s⟩] : List AssignmentRec).filter fun a =>
              decide (a.experiment_id = e' ∧ a.subject_key = s')) = [] := by
            rw [List.filter_eq_nil_iff]
            intro x hx
            simp only [List.mem_singleton] at hx
            subst hx
            simp only [decide_eq_true_eq, not_and]
            intro h1 h2
            exact absurd ⟨h1.symm, h2.symm⟩ hmatch
          rw [hz, List.length_append]
          simpa using hu e' s'
  · intro db eid s v exp hexp hst
    simp only [assignEndpoint, hexp]
    rw [if_neg (by rcases hst with h | h <;> simp [h])]

/-- Claim C1, witness for the corrected statement: the resolver returns
the stored control assignment for (e1, s1) without touching the store,
and the endpoint inserts the caller-chosen row on the same store. -/
theorem assignment_semantics_amended_witness :
    getOrAssignVariant dbWithAssignment (some "e1") "s1" =
      (some "control", dbWithAssignment) ∧
    assignEndpoint dbWithAssignment "e1" "s1" "treatment" =
      .ok (⟨"e1", "s1", "treatment"⟩,
        { dbWithAssignment with
          assignments := dbWithAssignment.assignments ++ [⟨"e1", "s1", "treatment"⟩] }) :=
  ⟨assignment_semantics_amended.1 dbWithAssignment "e1" "s1" ⟨"e1", "s1", "control"⟩
      (by decide) (by decide) (by decide),
   assignment_semantics_amended.2.2 dbWithAssignment "e1" "s1" "treatment"
      ⟨"e1", "exp one", "running"⟩ (by decide) (Or.inl (by decide))⟩

/-- Claim C6 (confirmed): the decision-path variant resolver is
deterministic and idempotent — no experiment id or an empty subject key
yields no variant; a stored assignment is returned verbatim with the
store unchanged; with no stored assignment and an assignable experiment
(running or draft) the variant is the parity of the last byte of the
SHA-256 hash of the subject key (treatment when odd, control when
even), and it is persisted; a missing or non-assignable experiment
yields no variant; and a repeated call for the same pair returns the
same variant with the store unchanged. -/
theorem getOrAssignVariant_spec :
    (∀ (db : AppDb) (s : String), getOrAssignVariant db none s = (none, db)) ∧
    (∀ (db : AppDb) (eid s : String) (a : AssignmentRec), eid ≠ "" → s ≠ "" →
      (db.assignments.find? fun x =>
        decide (x.experiment_id = eid ∧ x.subject_key = s)) = some a →
      getOrAssignVariant db (some eid) s = (some a.variant, db)) ∧
    (∀ (db : AppDb) (eid s : String) (exp : ExperimentRec), eid ≠ "" → s ≠ "" →
      (db.assignments.find? fun x =>
        decide (x.experiment_id = eid ∧ x.subject_key = s)) = none →
      (db.experiments.find? fun x => decide (x.id = eid)) = some exp →
      (exp.status = "running" ∨ exp.status = "draft") →
      getOrAssignVariant db (some eid) s =
        (some (hashVariant s),
         { db with assignments := db.assignments ++ [⟨eid, s, hashVariant s⟩] }) ∧
      hashVariant s =
        (if sha256LastByte s % 2 = 1 then "treatment" else "control")) ∧
    (∀ (db : AppDb) (eid s : String) (exp : ExperimentRec), eid ≠ "" → s ≠ "" →
      (db.assignments.find? fun x =>
        decide (x.experiment_id = eid ∧ x.subject_key = s)) = none →
      (db.experiments.find? fun x => decide (x.id = eid)) = some exp →
      exp.status ≠ "running" → exp.status ≠ "draft" →
      getOrAssignVariant db (some eid) s = (none, db)) ∧
    (∀ (db db' : AppDb) (eid s x : String),
      getOrAssignVariant db (some eid) s = (some x, db') →
      getOrAssignVariant db' (some eid) s = (some x, db')) := by
  refine ⟨fun db s => rfl, getOrAssign_found,
    fun db eid s exp he hs hfind hexp hst =>
      ⟨getOrAssign_insert db eid s exp he hs hfind hexp hst, rfl⟩,
    getOrAssign_not_assignable, ?_⟩
  intro db db' eid s x h
  by_cases hg : eid = "" ∨ s = ""
  · rw [show getOrAssignVariant db (some eid) s = (none, db) by
      simp only [getOrAssignVariant]; rw [if_pos hg]] at h
    simp at h
  · push_neg at hg
    rcases getOrAssign_cases db eid s with hc | ⟨a, hfind, hc⟩ | ⟨hfind, hc⟩
    · rw [hc] at h
      simp at h
    · rw [hc] at h
      simp only [Prod.mk.injEq, Option.some.injEq] at h
      obtain ⟨hx, hdb⟩ := h
      subst hdb
      rw [getOrAssign_found _ eid s a hg.1 hg.2 hfind, hx]
    · rw [hc] at h
      simp only [Prod.mk.injEq, Option.some.injEq] at h
      obtain ⟨hx, hdb⟩ := h
      subst hdb
      have hfind2 : ((db.assignments ++ ([⟨eid, s, hashVariant s⟩] : List AssignmentRec)).find?
          fun a => decide (a.experiment_id = eid ∧ a.subject_key = s)) =
          some (⟨eid, s, hashVariant s⟩ : AssignmentRec) := by
        rw [List.find?_append, hfind]
        simp
      rw [getOrAssign_found _ eid s _ hg.1 hg.2 hfind2, hx]

set_option maxRecDepth 16384 in
/-- Claim C6, witness: on a fresh running experiment the resolver hashes
the subject m1 (whose SHA-256 digest ends in an odd byte, 0x19) to the
treatment arm and persists it; the repeated call returns the same
variant without growing the store; and a 56-byte subject key of
fifty-six "1" characters — whose padded message wraps into a second
SHA-256 block and whose digest ends in the even byte 0xf2 — is bucketed
to the control arm. -/
theorem getOrAssignVariant_spec_witness :
    (getOrAssignVariant ⟨[⟨"e1", "exp one", "running"⟩], []⟩ (some "e1") "m1" =
      (some "treatment",
       ⟨[⟨"e1", "exp one", "running"⟩], [⟨"e1", "m1", "treatment"⟩]⟩) ∧
     hashVariant "m1" = (if sha256LastByte "m1" % 2 = 1 then "treatment" else "control")) ∧
    getOrAssignVariant ⟨[⟨"e1", "exp one", "running"⟩], [⟨"e1", "m1", "treatment"⟩]⟩
      (some "e1") "m1" =
      (some "treatment",
       ⟨[⟨"e1", "exp one", "running"⟩], [⟨"e1", "m1", "treatment"⟩]⟩) ∧
    getOrAssignVariant ⟨[⟨"e2", "exp two", "running"⟩], []⟩ (some "e2")
      "11111111111111111111111111111111111111111111111111111111" =
      (some "control",
       ⟨[⟨"e2", "exp two", "running"⟩],
        [⟨"e2", "11111111111111111111111111111111111111111111111111111111",
          "control"⟩]⟩) :=
  ⟨by
    have h := getOrAssignVariant_spec.2.2.1 ⟨[⟨"e1", "exp one", "running"⟩], []⟩
      "e1" "m1" ⟨"e1", "exp one", "running"⟩ (by decide) (by decide) (by decide)
      (by decide) (Or.inl (by decide))
    exact ⟨by rw [h.1]; decide, h.2⟩,
   getOrAssignVariant_spec.2.2.2.2 ⟨[⟨"e1", "exp one", "running"⟩], []⟩
     ⟨[⟨"e1", "exp one", "running"⟩], [⟨"e1", "m1", "treatment"⟩]⟩ "e1" "m1" "treatment"
     (by decide),
   by
    have h := getOrAssignVariant_spec.2.2.1 ⟨[⟨"e2", "exp two", "running"⟩], []⟩
      "e2" "11111111111111111111111111111111111111111111111111111111"
      ⟨"e2", "exp two", "running"⟩ (by decide) (by decide) (by decide)
      (by decide) (Or.inl (by decide))
    exact by rw [h.1]; decide⟩

-- ---------------------------------------------------------------------------
-- Claim C7: rule overrides amend only reason and provenance metadata
-- ---------------------------------------------------------------------------

/-- Claim C7 (confirmed): for every decision type, the rule-override
step amends only the decision's reason string and (for authentication)
its provenance metadata; every other field of the returned decision is
exactly the value produced by the pure policy function, whether or not
the engine is enabled and a rule matched; and when enabled with a
matching rule, the reason becomes the rule-override template. -/
theorem ruleOverride_frame :
    (∀ (enabled : Bool) (matching : List RuleRow) (d : AuthDecisionOut),
      (authRuleOverride enabled matching d).audit_id = d.audit_id ∧
      (authRuleOverride enabled matching d).decision = d.decision) ∧
    (∀ (enabled : Bool) (matching : List RuleRow) (d : RetryDecisionOut),
      (retryRuleOverride enabled matching d).audit_id = d.audit_id ∧
      (retryRuleOverride enabled matching d).should_retry = d.should_retry ∧
      (retryRuleOverride enabled matching d).backoff_seconds = d.backoff_seconds ∧
      (retryRuleOverride enabled matching d).max_attempts = d.max_attempts) ∧
    (∀ (enabled : Bool) (matching : List RuleRow) (d : RoutingDecisionOut),
      (routingRuleOverride enabled matching d).audit_id = d.audit_id ∧
      (routingRuleOverride enabled matching d).primary_route = d.primary_route ∧
      (routingRuleOverride enabled matching d).alternatives = d.alternatives) ∧
    (∀ (top : RuleRow) (rest : List RuleRow) (d : AuthDecisionOut),
      (authRuleOverride true (top :: rest) d).reason = overrideReason top ∧
      (authRuleOverride true (top :: rest) d).metadata =
        dictMerge d.metadata
          [("matched_rule_id", .str top.id), ("matched_rule_name", .str top.name)]) := by
  refine ⟨?_, ?_, ?_, ?_⟩
  · intro enabled matching d
    cases enabled <;> cases matching <;>
      exact ⟨rfl, rfl⟩
  · intro enabled matching d
    cases enabled <;> cases matching <;>
      exact ⟨rfl, rfl, rfl, rfl⟩
  · intro enabled matching d
    cases enabled <;> cases matching <;>
      exact ⟨rfl, rfl, rfl⟩
  · intro top rest d
    exact ⟨rfl, rfl⟩

-- ---------------------------------------------------------------------------
-- Claim C8: enrichment never mutates the input context
-- ---------------------------------------------------------------------------

theorem copy_set_orig (st : ObjState) (m : MetaMap) :
    (setEnrMeta (copyEnriched st) m).orig = st.orig := rfl

theorem enrichWithMLSt_orig (st : ObjState) (e a : Bool) (r : Option RiskRes)
    (ap : Option ApprovalRes) :
    (enrichWithMLSt st e a r ap).orig = st.orig := by
  unfold enrichWithMLSt
  split
  · rfl
  · rcases r with _ | ⟨rs, rt⟩
    · rcases ap with _ | ⟨app, amv⟩
      · rfl
      · rcases app with _ | p
        · rfl
        · rfl
    · rcases rs with _ | q <;>
        rcases hq : st.enr.risk_score with _ | q0 <;>
        rcases ap with _ | ⟨app, amv⟩ <;>
        first
          | (rcases app with _ | p <;>
              simp [copyEnriched, setEnrMeta, setEnrRisk, hq])
          | simp [copyEnriched, setEnrMeta, setEnrRisk, hq]

/-- Claim C8 (confirmed): enrichment never mutates the caller's
DecisionContext — in each of the three decide_* pipelines every
similarity (vs_*), scoring (ml_*), agent-recommendation, and streaming
merge is applied to a model_copy of the context, so after the pipeline
the original context object, all its fields and its metadata included,
is exactly what was passed in. -/
theorem enrichment_preserves_ctx :
    (∀ (ctx : DecisionContext) (enabled svcAvail : Bool) (risk : Option RiskRes)
      (approval : Option ApprovalRes) (vs : Option MetaMap) (recs : List RecRow)
      (streaming : List (String × Option ℚ)),
      (authEnrichChain ctx enabled svcAvail risk approval vs recs streaming).1 = ctx) ∧
    (∀ (ctx : DecisionContext) (vs : Option MetaMap) (recs : List RecRow)
      (retryRes : Option RetryMLRes),
      (retryEnrichChain ctx vs recs retryRes).1 = ctx) ∧
    (∀ (ctx : DecisionContext) (vs : Option MetaMap) (recs : List RecRow)
      (routingRes : Option RoutingMLRes),
      (routingEnrichChain ctx vs recs routingRes).1 = ctx) := by
  refine ⟨?_, ?_, ?_⟩
  · intro ctx enabled svcAvail risk approval vs recs streaming
    unfold authEnrichChain
    rcases vs with _ | v <;> rcases recs with _ | ⟨top, rest⟩ <;>
      rcases streaming with _ | ⟨sf, sfs⟩ <;>
      simp [copy_set_orig, enrichWithMLSt_orig, mkAlias]
  · intro ctx vs recs retryRes
    unfold retryEnrichChain
    rcases vs with _ | v <;> rcases recs with _ | ⟨top, rest⟩ <;>
      rcases retryRes with _ | ⟨prob, sr, mv, ds⟩ <;>
      first
        | (rcases prob with _ | p <;> simp [copy_set_orig, mkAlias])
        | simp [copy_set_orig, mkAlias]
  · intro ctx vs recs routingRes
    unfold routingEnrichChain
    rcases routingRes with _ | ⟨route, conf, alts⟩
    · rcases vs with _ | v <;> rcases recs with _ | ⟨top, rest⟩ <;>
        simp [copy_set_orig, mkAlias]
    · rcases route with _ | rt
      · rcases vs with _ | v <;> rcases recs with _ | ⟨top, rest⟩ <;>
          simp [copy_set_orig, mkAlias]
      · by_cases hrt : rt = "" <;> rcases vs with _ | v <;>
          rcases recs with _ | ⟨top, rest⟩ <;>
          simp [copy_set_orig, mkAlias, hrt]

-- ---------------------------------------------------------------------------
-- Claim C9: record_outcome
-- ---------------------------------------------------------------------------

/-- Claim C9 (confirmed): record_outcome never raises (it is a total
function of its inputs): it returns false with nothing persisted when
no session is attached, returns false and leaves the store unchanged
when the write fails (the exception is caught), and on success appends
exactly one Outcome row built from its arguments and returns true —
for every combination of its arguments. -/
theorem record_outcome_spec :
    (∀ (aid dt oc : String) (ocode oreason : Option String) (lat : Option ℤ)
      (meta : Option MetaMap),
      record_outcome none aid dt oc ocode oreason lat meta = (false, none)) ∧
    (∀ (s : SessionState) (aid dt oc : String) (ocode oreason : Option String)
      (lat : Option ℤ) (meta : Option MetaMap), s.failsWrite = true →
      record_outcome (some s) aid dt oc ocode oreason lat meta = (false, some s)) ∧
    (∀ (s : SessionState) (aid dt oc : String) (ocode oreason : Option String)
      (lat : Option ℤ) (meta : Option MetaMap), s.failsWrite = false →
      record_outcome (some s) aid dt oc ocode oreason lat meta =
        (true, some { s with outcomes := s.outcomes ++
          [⟨aid, dt, oc, ocode, oreason, lat, meta.getD []⟩] })) := by
  refine ⟨fun _ _ _ _ _ _ _ => rfl, ?_, ?_⟩
  · intro s aid dt oc ocode oreason lat meta h
    simp only [record_outcome, h, if_true]
  · intro s aid dt oc ocode oreason lat meta h
    simp only [record_outcome, h, if_false, Bool.false_eq_true]

/-- Claim C9, witness: a failing session yields false with the store
unchanged; a healthy session appends the one outcome row and yields
true. -/
theorem record_outcome_spec_witness :
    record_outcome (some ⟨[], true⟩) "a1" "retry" "approved" none none none none =
      (false, some ⟨[], true⟩) ∧
    record_outcome (some ⟨[], false⟩) "a1" "retry" "approved" none none none none =
      (true, some ⟨[⟨"a1", "retry", "approved", none, none, none, []⟩], false⟩) :=
  ⟨record_outcome_spec.2.1 ⟨[], true⟩ "a1" "retry" "approved" none none none none rfl,
   record_outcome_spec.2.2 ⟨[], false⟩ "a1" "retry" "approved" none none none none rfl⟩

-- ---------------------------------------------------------------------------
-- Claims C3 and C5: Gaussian facts about the p-value computation
-- ---------------------------------------------------------------------------

theorem erfFun_zero : erfFun 0 = 0 := by
  unfold erfFun
  rw [intervalIntegral.integral_same]
  ring

theorem normalCdf_zero : normalCdf 0 = 1/2 := by
  unfold normalCdf
  rw [show (0:ℝ) / Real.sqrt 2 = 0 by simp, erfFun_zero]
  norm_num

theorem exp_neg_sq_integrable : MeasureTheory.Integrable fun x : ℝ => Real.exp (-x^2) := by
  have h := integrable_exp_neg_mul_sq (b := 1) one_pos
  simpa using h

theorem integral_exp_neg_sq_Ioi_zero :
    ∫ x in Set.Ioi (0:ℝ), Real.exp (-x^2) = Real.sqrt Real.pi / 2 := by
  have h := integral_gaussian_Ioi 1
  simpa using h

theorem one_sub_erf (a : ℝ) (ha : 0 ≤ a) :
    1 - erfFun a = 2 / Real.sqrt Real.pi * ∫ x in Set.Ioi a, Real.exp (-x^2) := by
  have hsqrt_pos : 0 < Real.sqrt Real.pi := Real.sqrt_pos.mpr Real.pi_pos
  have hsplit : (∫ x in Set.Ioc 0 a, Real.exp (-x^2)) +
      ∫ x in Set.Ioi a, Real.exp (-x^2) = Real.sqrt Real.pi / 2 := by
    rw [← integral_exp_neg_sq_Ioi_zero, ← Set.Ioc_union_Ioi_eq_Ioi ha]
    exact (MeasureTheory.integral_union (Set.Ioc_disjoint_Ioi le_rfl)
      measurableSet_Ioi exp_neg_sq_integrable.integrableOn
      exp_neg_sq_integrable.integrableOn).symm
  have herf : erfFun a = 2 / Real.sqrt Real.pi * ∫ x in Set.Ioc 0 a, Real.exp (-x^2) := by
    unfold erfFun
    rw [intervalIntegral.integral_of_le ha]
  have hone : (1:ℝ) = 2 / Real.sqrt Real.pi * (Real.sqrt Real.pi / 2) := by
    field_simp
  rw [herf, hone, ← hsplit]
  ring

theorem integral_mul_exp_neg_sq_Ioi (a : ℝ) :
    ∫ x in Set.Ioi a, x * Real.exp (-x^2) = Real.exp (-a^2) / 2 := by
  have hderiv : ∀ x ∈ Set.Ioi a,
      HasDerivAt (fun t : ℝ => -(Real.exp (-t^2) / 2)) (x * Real.exp (-x^2)) x := by
    intro x _
    have h1 : HasDerivAt (fun t : ℝ => -t^2) (-(2*x)) x := by
      simpa using (hasDerivAt_pow 2 x).neg
    have h2 := (h1.exp.div_const 2).neg
    convert h2 using 1
    ring
  have hcont : ContinuousWithinAt (fun t : ℝ => -(Real.exp (-t^2) / 2)) (Set.Ici a) a := by
    have : Continuous fun t : ℝ => -(Real.exp (-t^2) / 2) :=
      ((Real.continuous_exp.comp (continuous_pow 2).neg).div_const 2).neg
    exact this.continuousWithinAt
  have hInt : MeasureTheory.IntegrableOn (fun x : ℝ => x * Real.exp (-x^2)) (Set.Ioi a) := by
    have h := integrable_mul_exp_neg_mul_sq (b := 1) one_pos
    have h2 : MeasureTheory.Integrable fun x : ℝ => x * Real.exp (-x^2) := by simpa using h
    exact h2.integrableOn
  have hTend : Filter.Tendsto (fun t : ℝ => -(Real.exp (-t^2) / 2))
      Filter.atTop (nhds 0) := by
    have h1 : Filter.Tendsto (fun t : ℝ => -t^2) Filter.atTop Filter.atBot :=
      Filter.Tendsto.comp Filter.tendsto_neg_atTop_atBot (Filter.tendsto_pow_atTop (by norm_num))
    have h2 : Filter.Tendsto (fun t : ℝ => Real.exp (-t^2)) Filter.atTop (nhds 0) :=
      Real.tendsto_exp_atBot.comp h1
    have h3 := (h2.div_const 2).neg
    simpa using h3
  have hmain := MeasureTheory.integral_Ioi_of_hasDerivAt_of_tendsto hcont hderiv hInt hTend
  rw [hmain]
  ring

theorem gaussian_tail_le (a : ℝ) (ha : 0 < a) :
    ∫ x in Set.Ioi a, Real.exp (-x^2) ≤ Real.exp (-a^2) / (2*a) := by
  have hfInt : MeasureTheory.IntegrableOn (fun x : ℝ => Real.exp (-x^2)) (Set.Ioi a) :=
    exp_neg_sq_integrable.integrableOn
  have hgInt0 : MeasureTheory.IntegrableOn (fun x : ℝ => x * Real.exp (-x^2)) (Set.Ioi a) := by
    have h := integrable_mul_exp_neg_mul_sq (b := 1) one_pos
    have h2 : MeasureTheory.Integrable fun x : ℝ => x * Real.exp (-x^2) := by simpa using h
    exact h2.integrableOn
  have heq : (fun x : ℝ => x/a * Real.exp (-x^2)) =
      fun x : ℝ => (1/a) * (x * Real.exp (-x^2)) := by
    funext x
    ring
  have hgInt : MeasureTheory.IntegrableOn (fun x : ℝ => x/a * Real.exp (-x^2))
      (Set.Ioi a) := by
    rw [heq]
    exact hgInt0.const_mul (1/a)
  have hpt : ∀ x ∈ Set.Ioi a, Real.exp (-x^2) ≤ x/a * Real.exp (-x^2) := by
    intro x hx
    have h1 : 1 ≤ x/a := (one_le_div ha).mpr (le_of_lt hx)
    calc Real.exp (-x^2) = 1 * Real.exp (-x^2) := (one_mul _).symm
    _ ≤ x/a * Real.exp (-x^2) :=
      mul_le_mul_of_nonneg_right h1 (Real.exp_pos _).le
  have hmono := MeasureTheory.setIntegral_mono_on hfInt hgInt measurableSet_Ioi hpt
  have hval : ∫ x in Set.Ioi a, x/a * Real.exp (-x^2) = Real.exp (-a^2) / (2*a) := by
    rw [heq, MeasureTheory.integral_mul_left, integral_mul_exp_neg_sq_Ioi]
    field_simp
    ring
  rw [hval] at hmono
  exact hmono

theorem two_one_sub_normalCdf_lt (z : ℝ) (hz : 3 ≤ z) :
    2 * (1 - normalCdf z) < 1/20 := by
  have hsqrt2 : 0 < Real.sqrt 2 := Real.sqrt_pos.mpr (by norm_num)
  have hsqrtpi : 0 < Real.sqrt Real.pi := Real.sqrt_pos.mpr Real.pi_pos
  set a := z / Real.sqrt 2 with hadef
  have hz0 : 0 < z := lt_of_lt_of_le (by norm_num) hz
  have ha : 0 < a := div_pos hz0 hsqrt2
  have key : 2 * (1 - normalCdf z) =
      2 / Real.sqrt Real.pi * ∫ x in Set.Ioi a, Real.exp (-x^2) := by
    unfold normalCdf
    have h := one_sub_erf a ha.le
    calc 2 * (1 - (1 + erfFun (z / Real.sqrt 2)) / 2) = 1 - erfFun a := by
          rw [hadef]; ring
    _ = 2 / Real.sqrt Real.pi * ∫ x in Set.Ioi a, Real.exp (-x^2) := h
  have hbound : 2 / Real.sqrt Real.pi * (∫ x in Set.Ioi a, Real.exp (-x^2)) ≤
      2 / Real.sqrt Real.pi * (Real.exp (-a^2) / (2*a)) :=
    mul_le_mul_of_nonneg_left (gaussian_tail_le a ha) (by positivity)
  have hsimp : 2 / Real.sqrt Real.pi * (Real.exp (-a^2) / (2*a)) =
      Real.exp (-a^2) / (Real.sqrt Real.pi * a) := by
    field_simp
    ring
  have hasq : a^2 = z^2 / 2 := by
    rw [hadef, div_pow, Real.sq_sqrt (by norm_num : (0:ℝ) ≤ 2)]
  have hz2 : (9:ℝ) ≤ z^2 := by nlinarith
  have hexp : Real.exp (-a^2) ≤ Real.exp (-2) := by
    apply Real.exp_le_exp.mpr
    rw [hasq]
    linarith
  have hden : (3:ℝ) ≤ Real.sqrt Real.pi * a := by
    have h1 : Real.sqrt 2 ≤ Real.sqrt Real.pi := Real.sqrt_le_sqrt Real.two_le_pi
    have h2 : 3 / Real.sqrt 2 ≤ a := by
      rw [hadef]
      gcongr
    calc (3:ℝ) = 3 / Real.sqrt 2 * Real.sqrt 2 := by
          field_simp
    _ ≤ a * Real.sqrt 2 := by
          exact mul_le_mul_of_nonneg_right h2 hsqrt2.le
    _ ≤ a * Real.sqrt Real.pi := mul_le_mul_of_nonneg_left h1 ha.le
    _ = Real.sqrt Real.pi * a := mul_comm _ _
  have hfrac : Real.exp (-a^2) / (Real.sqrt Real.pi * a) ≤ Real.exp (-2) / 3 :=
    div_le_div (Real.exp_pos _).le hexp (by norm_num) hden
  have hexp2 : (7:ℝ) < Real.exp 2 := by
    have h1 := Real.exp_one_gt_d9
    have h2 : Real.exp 2 = Real.exp 1 * Real.exp 1 := by
      rw [← Real.exp_add]
      norm_num
    nlinarith
  have hlast : Real.exp (-2) / 3 < 1/20 := by
    rw [Real.exp_neg]
    have h3 : (Real.exp 2)⁻¹ < 7⁻¹ := inv_lt_inv_of_lt (by norm_num) hexp2
    calc (Real.exp 2)⁻¹ / 3 < 7⁻¹ / 3 := (div_lt_div_right (by norm_num)).mpr h3
    _ ≤ 1/20 := by norm_num
  calc 2 * (1 - normalCdf z)
      = 2 / Real.sqrt Real.pi * ∫ x in Set.Ioi a, Real.exp (-x^2) := key
  _ ≤ 2 / Real.sqrt Real.pi * (Real.exp (-a^2) / (2*a)) := hbound
  _ = Real.exp (-a^2) / (Real.sqrt Real.pi * a) := hsimp
  _ ≤ Real.exp (-2) / 3 := hfrac
  _ < 1/20 := hlast

theorem seSq_concrete : seSq 200 100 200 130 = 391/160000 := by
  norm_num [seSq, pooledProp]

theorem sqrt_se_concrete :
    Real.sqrt ((391/160000 : ℚ) : ℝ) = Real.sqrt 391 / 400 := by
  rw [show ((391/160000 : ℚ) : ℝ) = 391 / 400^2 by push_cast; norm_num,
    Real.sqrt_div (by norm_num : (0:ℝ) ≤ 391),
    Real.sqrt_sq (by norm_num : (0:ℝ) ≤ 400)]

theorem zStat_concrete_ge_three : 3 ≤ zStat 200 100 200 130 := by
  have hsqrt391_pos : 0 < Real.sqrt 391 := Real.sqrt_pos.mpr (by norm_num)
  have hsqrt391_le : Real.sqrt 391 ≤ 20 := by
    calc Real.sqrt 391 ≤ Real.sqrt 400 := Real.sqrt_le_sqrt (by norm_num)
    _ = 20 := by
        rw [show (400:ℝ) = 20^2 by norm_num, Real.sqrt_sq (by norm_num : (0:ℝ) ≤ 20)]
  have hz_eq : zStat 200 100 200 130 = 60 / Real.sqrt 391 := by
    unfold zStat
    rw [seSq_concrete, sqrt_se_concrete]
    push_cast
    rw [show ((130:ℝ)/200 - 100/200) = 3/20 by norm_num]
    rw [div_div_eq_mul_div, div_mul_eq_mul_div, eq_div_iff (by positivity : Real.sqrt 391 ≠ 0)]
    field_simp
    ring
  rw [hz_eq, le_div_iff hsqrt391_pos]
  nlinarith [hsqrt391_le]

theorem zStat_concrete_pos : 0 < zStat 200 100 200 130 :=
  lt_of_lt_of_le (by norm_num) zStat_concrete_ge_three

theorem pValue_concrete :
    pValue 200 100 200 130 = some (2 * (1 - normalCdf |zStat 200 100 200 130|)) := by
  unfold pValue
  rw [if_pos]
  refine ⟨by norm_num, by norm_num, by norm_num [pooledProp],
    by norm_num [pooledProp], by norm_num [seSq, pooledProp]⟩

/-- Claim C3 (confirmed): get_experiment_results computes the lift as
(treatment_rate − control_rate) / control_rate × 100 guarded against a
zero control rate, the pooled proportion (approved_c + approved_t) /
(n_c + n_t), the z statistic (rate_t − rate_c) / sqrt(p̄ (1 − p̄)
(1/n_c + 1/n_t)), the two-sided p-value 2 (1 − Φ(|z|)) with Φ the
normal CDF implemented through erf, and marks the result significant
exactly when p < 0.05; on control (n = 200, approved = 100) and
treatment (n = 200, approved = 130) the lift is exactly +30.0 % and the
p-value is below 0.05, hence significant. -/
theorem experiment_results_formulas :
    (∀ c_n c_a t_n t_a : ℕ, 0 < c_n → 0 < t_n → 0 < c_a →
      liftPct c_n c_a t_n t_a =
        some (((t_a : ℚ)/(t_n : ℚ) - (c_a : ℚ)/(c_n : ℚ)) / ((c_a : ℚ)/(c_n : ℚ)) * 100)) ∧
    (∀ c_n t_n t_a : ℕ, 0 < c_n → 0 < t_n → liftPct c_n 0 t_n t_a = none) ∧
    (∀ c_n c_a t_n t_a : ℕ,
      pooledProp c_n c_a t_n t_a = ((c_a : ℚ) + (t_a : ℚ)) / ((c_n : ℚ) + (t_n : ℚ))) ∧
    (∀ c_n c_a t_n t_a : ℕ, 0 < c_n → 0 < t_n → 0 < c_a + t_a →
      c_a + t_a < c_n + t_n →
      pValue c_n c_a t_n t_a =
        some (2 * (1 - normalCdf
          |(((t_a : ℚ)/(t_n : ℚ) - (c_a : ℚ)/(c_n : ℚ) : ℚ) : ℝ) /
            Real.sqrt ((pooledProp c_n c_a t_n t_a *
              (1 - pooledProp c_n c_a t_n t_a) *
              (1/(c_n : ℚ) + 1/(t_n : ℚ)) : ℚ) : ℝ)|))) ∧
    (∀ c_n c_a t_n t_a : ℕ, isSignificant c_n c_a t_n t_a ↔
      ∃ p, pValue c_n c_a t_n t_a = some p ∧ p < 1/20) ∧
    (liftPct 200 100 200 130 = some 30) ∧
    (∃ p, pValue 200 100 200 130 = some p ∧ p < 1/20) ∧
    isSignificant 200 100 200 130 := by
  have hmain : ∀ c_n c_a t_n t_a : ℕ, 0 < c_n → 0 < t_n → 0 < c_a + t_a →
      c_a + t_a < c_n + t_n →
      pValue c_n c_a t_n t_a =
        some (2 * (1 - normalCdf
          |(((t_a : ℚ)/(t_n : ℚ) - (c_a : ℚ)/(c_n : ℚ) : ℚ) : ℝ) /
            Real.sqrt ((pooledProp c_n c_a t_n t_a *
              (1 - pooledProp c_n c_a t_n t_a) *
              (1/(c_n : ℚ) + 1/(t_n : ℚ)) : ℚ) : ℝ)|)) := by
    intro c_n c_a t_n t_a hc ht hpos hlt
    have hden : (0:ℚ) < (c_n : ℚ) + (t_n : ℚ) := by
      have : (0:ℚ) < (c_n : ℚ) := by exact_mod_cast hc
      have h2 : (0:ℚ) ≤ (t_n : ℚ) := by positivity
      linarith
    have hp1 : 0 < pooledProp c_n c_a t_n t_a := by
      unfold pooledProp
      apply div_pos _ hden
      exact_mod_cast hpos
    have hp2 : pooledProp c_n c_a t_n t_a < 1 := by
      unfold pooledProp
      rw [div_lt_one hden]
      exact_mod_cast hlt
    have hp3 : 0 < seSq c_n c_a t_n t_a := by
      unfold seSq
      have hinv : (0:ℚ) < 1/(c_n : ℚ) + 1/(t_n : ℚ) := by
        have h1 : (0:ℚ) < (c_n : ℚ) := by exact_mod_cast hc
        have h2 : (0:ℚ) < (t_n : ℚ) := by exact_mod_cast ht
        positivity
      exact mul_pos (mul_pos hp1 (by linarith)) hinv
    unfold pValue
    rw [if_pos ⟨hc, ht, hp1, hp2, hp3⟩]
    rfl
  refine ⟨?_, ?_, fun _ _ _ _ => rfl, hmain, fun _ _ _ _ => Iff.rfl, ?_, ?_, ?_⟩
  · intro c_n c_a t_n t_a hc ht ha
    have hrate : (0:ℚ) < (c_a : ℚ)/(c_n : ℚ) := by
      apply div_pos
      · exact_mod_cast ha
      · exact_mod_cast hc
    unfold liftPct
    rw [if_pos ⟨hc, ht⟩, if_pos hrate]
  · intro c_n t_n t_a hc ht
    unfold liftPct
    rw [if_pos ⟨hc, ht⟩, if_neg]
    simp
  · unfold liftPct
    norm_num
  · refine ⟨2 * (1 - normalCdf |zStat 200 100 200 130|), pValue_concrete, ?_⟩
    rw [abs_of_pos zStat_concrete_pos]
    exact two_one_sub_normalCdf_lt _ zStat_concrete_ge_three
  · refine ⟨2 * (1 - normalCdf |zStat 200 100 200 130|), pValue_concrete, ?_⟩
    rw [abs_of_pos zStat_concrete_pos]
    exact two_one_sub_normalCdf_lt _ zStat_concrete_ge_three

/-- Claim C3, witness for the general formula components at the
spec's concrete counts. -/
theorem experiment_results_formulas_witness :
    liftPct 200 100 200 130 =
      some (((130 : ℚ)/(200 : ℚ) - (100 : ℚ)/(200 : ℚ)) / ((100 : ℚ)/(200 : ℚ)) * 100) ∧
    pValue 200 100 200 130 =
      some (2 * (1 - normalCdf
        |(((130 : ℚ)/(200 : ℚ) - (100 : ℚ)/(200 : ℚ) : ℚ) : ℝ) /
          Real.sqrt ((pooledProp 200 100 200 130 *
            (1 - pooledProp 200 100 200 130) *
            (1/(200 : ℚ) + 1/(200 : ℚ)) : ℚ) : ℝ)|)) :=
  ⟨by
    have h := experiment_results_formulas.1 200 100 200 130
      (by decide) (by decide) (by decide)
    exact_mod_cast h,
   by
    have h := experiment_results_formulas.2.2.2.1 200 100 200 130
      (by decide) (by decide) (by decide) (by decide)
    exact_mod_cast h⟩

/-- Claim C5 (code bug): on an experiment where both variants have
outcomes but the difference is not significant — e.g. control and
treatment both 50 approved out of 100, giving z = 0 and p = 1 — the
recommendation construction raises instead of returning the fourth
("not yet significant") template: the f-string at experiments.py
line 264 formats the float p-value with the literal (invalid) format
specification ".4f if p_value else 'N/A'", which raises ValueError. -/
theorem recommendation_raises_when_not_significant :
    pValue 100 50 100 50 = some 1 ∧
    recommendationResult 100 50 100 50 = .error .valueError := by
  have hz : zStat 100 50 100 50 = 0 := by
    unfold zStat
    push_cast
    norm_num
  have hp : pValue 100 50 100 50 = some 1 := by
    unfold pValue
    rw [if_pos ⟨by norm_num, by norm_num, by norm_num [pooledProp],
      by norm_num [pooledProp], by norm_num [seSq, pooledProp]⟩]
    rw [hz, abs_zero, normalCdf_zero]
    norm_num
  refine ⟨hp, ?_⟩
  unfold recommendationResult
  rw [if_pos ⟨by norm_num, by norm_num⟩]
  simp only [hp]
  rw [if_neg (by norm_num)]

end PaymentAnalysis
